import Mathlib

/-!
The channel registry, the channel loop and the authority model of channeld.

A shallow embedding of `pkg/channeld/channel.go` and of
`GlobalSettingsType.GetChannelSettings` from `pkg/channeld/settings.go`.

Conventions of the embedding.

* Go objects reached through `*Channel` live in `Registry.heap`; a `*Channel`
  is the index of its object there and a nullable pointer is an `Option`.
  `CreateChannel` allocates at the end of the heap, nothing is ever freed.
* Machine integers are `Nat` / `Int` with the wrap-around written out
  (`% 2^32`, `toInt32`, `toInt64`).
* A Go panic (nil dereference, closing a closed Go channel) and a send that
  blocks for ever in a sequential run are both the result `none`.
* `*Connection`, `GetConnection` and `Connection.IsRemoving` belong to the
  connection layer, which is outside the given sources: connections are
  addresses (`ConnPtr`) and the two functions are fields of `TickEnv`.
* Fields of `Channel` that no embedded function reads (`data`, `fanOutQueue`,
  `startTime`, `logger`) and the metrics counters are left out.
-/

namespace Channeld

/-! ## Machine integers -/

/-- Two's-complement reduction of an integer to the range of Go's `int32`. -/
def toInt32 (n : Int) : Int := (n + 2 ^ 31) % 2 ^ 32 - 2 ^ 31

/-- Two's-complement reduction of an integer to the range of Go's `int64`. -/
def toInt64 (n : Int) : Int := (n + 2 ^ 63) % 2 ^ 64 - 2 ^ 63

/-- Go's `time.Millisecond`, a `time.Duration` (int64 nanoseconds). -/
def Millisecond : Int := 1000000

/-! ## Basic types of `channel.go` -/

/-- Go's `type ChannelState uint8` with its three constants. -/
inductive ChannelState where
  | INIT
  | OPEN
  | HANDOVER
  deriving DecidableEq, Repr

/-- Go's `type ChannelId uint32`; values are kept below `2^32`. -/
abbrev ChannelId := Nat

/-- Go's `type ChannelTime int64`, nanoseconds since the channel was created. -/
abbrev ChannelTime := Int

/-- Address of a `Channel` object: its index in `Registry.heap`. -/
abbrev ChanPtr := Nat

/-- Address of a `Connection` object (the connection layer is external). -/
abbrev ConnPtr := Nat

/-- Go's `ConnectionId`, the key of the subscriber table. -/
abbrev ConnectionId := Nat

/-- Modelled from the spec: the enum `proto.ChannelType` is generated code that
is not among the sources; the spec names the tags `GLOBAL`, `SUBWORLD`, `TEST`
and leaves the list open, which `OTHER` stands for. -/
inductive ChannelType where
  | GLOBAL
  | SUBWORLD
  | TEST
  | OTHER (tag : Nat)
  deriving DecidableEq, Repr

/-- Modelled from the spec: the enum `proto.BroadcastType` is generated code that
is not among the sources; the spec fixes
`NO_BROADCAST=0, ALL=1, ALL_BUT_SENDER=2, ALL_BUT_OWNER=3, SINGLE_CONNECTION=4`. -/
inductive BroadcastType where
  | NO_BROADCAST
  | ALL
  | ALL_BUT_SENDER
  | ALL_BUT_OWNER
  | SINGLE_CONNECTION
  deriving DecidableEq, Repr

/-- Method `ChannelTime.AddMs`:
`return t + ChannelTime(uint32(time.Millisecond)*ms)`.
The product is formed in `uint32`, the sum in `int64`. -/
def AddMs (t : ChannelTime) (ms : Nat) : ChannelTime :=
  toInt64 (t + ((Millisecond.toNat % 2 ^ 32 * ms) % 2 ^ 32 : Nat))

/-! ## Settings (`settings.go`) -/

/-- Go's `ChannelSettingsType` (`uint` and `uint32` fields). -/
structure ChannelSettingsType where
  TickIntervalMs : Nat
  DefaultFanOutIntervalMs : Nat
  deriving DecidableEq, Repr

/-- Go's `GlobalSettingsType`, reduced to the one field the channel runtime
reads, the map `ChannelSettings`; a key without an entry maps to `none`. -/
structure GlobalSettingsType where
  ChannelSettings : ChannelType → Option ChannelSettingsType

/-- The two-result map index `v, exists := m[k]` of Go: the zero value and
`false` for a missing key. -/
def settingsIndex (m : ChannelType → Option ChannelSettingsType) (k : ChannelType) :
    ChannelSettingsType × Bool :=
  match m k with
  | some v => (v, true)
  | none => (⟨0, 0⟩, false)

/-- Method `GlobalSettingsType.GetChannelSettings`. -/
def GetChannelSettings (s : GlobalSettingsType) (t : ChannelType) : ChannelSettingsType :=
  let (settings, ex) := settingsIndex s.ChannelSettings t
  if !ex then (settingsIndex s.ChannelSettings ChannelType.GLOBAL).1 else settings

/-- The initial value of the package variable `GlobalSettings`: one entry, for
`GLOBAL`, with `TickIntervalMs: 10` and `DefaultFanOutIntervalMs: 20`. -/
def GlobalSettings : GlobalSettingsType :=
  ⟨fun t => if t = ChannelType.GLOBAL then some ⟨10, 20⟩ else none⟩

/-! ## Messages -/

/-- Go's `Message` interface (a decoded protobuf message), kept as its bytes. -/
abbrev Message := List Nat

/-- Go's `MessageHandlerFunc`. Handlers are code outside `channel.go`; the
embedding names a handler by a number and records each invocation. -/
abbrev MessageHandlerFunc := Nat

/-- The fields of `proto.MessagePack` that `PutMessage` reads. -/
structure MessagePack where
  ChannelId : Nat
  Broadcast : BroadcastType
  StubId : Nat
  MsgType : Nat
  deriving DecidableEq, Repr

/-- Go's `MessageContext`, with the fields `PutMessage` fills in. -/
structure MessageContext where
  MsgType : Nat
  Msg : Message
  Connection : Option ConnPtr
  Channel : Option ChanPtr
  Broadcast : BroadcastType
  StubId : Nat
  ChannelId : Nat
  deriving DecidableEq, Repr

/-- Go's `channelMessage`. -/
structure channelMessage where
  ctx : MessageContext
  handler : MessageHandlerFunc
  deriving DecidableEq, Repr

/-- Modelled from the spec: `ChannelSubscription` is declared in a source file
that is not given; the spec lists a subscription's cadence, field masks,
update capability and the time of its last fan-out. -/
structure ChannelSubscription where
  fanOutIntervalMs : Nat
  dataFieldMasks : List String
  canUpdateData : Bool
  lastFanOutTime : Option ChannelTime
  deriving DecidableEq, Repr

/-! ## Channels and the registry -/

/-- Go's `Channel` struct. `subscribedConnections` is the Go map as an
association list; the order of the list is the order in which `range` visits
the keys. `inMsgQueue` is the buffered Go channel of capacity 1024, oldest
message first, and `inMsgQueueClosed` records `close(ch.inMsgQueue)`. -/
structure Channel where
  id : ChannelId
  channelType : ChannelType
  state : ChannelState
  ownerConnection : Option ConnPtr
  subscribedConnections : List (ConnectionId × ChannelSubscription)
  metadata : String
  inMsgQueue : List channelMessage
  inMsgQueueClosed : Bool
  tickInterval : Int
  tickFrames : Int
  enableClientBroadcast : Bool
  removing : Int
  deriving DecidableEq, Repr

/-- Capacity of `inMsgQueue`: `make(chan channelMessage, 1024)`. -/
def inMsgQueueCap : Nat := 1024

/-- Go's `const GlobalChannelId ChannelId = 0`. -/
def GlobalChannelId : ChannelId := 0

/-- The package state of `channel.go`: the allocated `Channel` objects and the
variables `nextChannelId`, `allChannels` (a `sync.Map` from id to a nullable
`*Channel`) and `globalChannel`. -/
structure Registry where
  heap : List Channel
  nextChannelId : ChannelId
  allChannels : ChannelId → Option (Option ChanPtr)
  globalChannel : Option ChanPtr

/-- The state at program start: `nextChannelId = GlobalChannelId`, an empty
`allChannels` and a nil `globalChannel`. -/
def initRegistry : Registry :=
  { heap := [], nextChannelId := GlobalChannelId, allChannels := fun _ => none,
    globalChannel := none }

/-- Go's `sync.Map.Store`. -/
def syncStore (m : ChannelId → Option (Option ChanPtr)) (k : ChannelId) (v : Option ChanPtr) :
    ChannelId → Option (Option ChanPtr) :=
  fun k1 => if k1 = k then some v else m k1

/-- Go's `sync.Map.Delete`. -/
def syncDelete (m : ChannelId → Option (Option ChanPtr)) (k : ChannelId) :
    ChannelId → Option (Option ChanPtr) :=
  fun k1 => if k1 = k then none else m k1

/-- Function `GetChannel`: the stored pointer when the key is present (it may
be a nil pointer), nil otherwise. -/
def GetChannel (r : Registry) (id : ChannelId) : Option ChanPtr :=
  match r.allChannels id with
  | some ch => ch
  | none => none

/-- Function `CreateChannel`. The result is the new package state and Go's
result pair `(*Channel, error)`. Starting the goroutine `ch.Tick()` is not part
of the state change; the loop is `Tick` below. -/
def CreateChannel (s : GlobalSettingsType) (r : Registry) (t : ChannelType)
    (owner : Option ConnPtr) : Registry × Option ChanPtr × Option String :=
  if t = ChannelType.GLOBAL ∧ r.globalChannel ≠ none then
    (r, none, some "failed to create WORLD channel as it already exists")
  else
    let ch : Channel :=
      { id := r.nextChannelId
        channelType := t
        state := if owner = none then ChannelState.INIT else ChannelState.OPEN
        ownerConnection := owner
        subscribedConnections := []
        metadata := ""
        inMsgQueue := []
        inMsgQueueClosed := false
        tickInterval := toInt64 (toInt64 (GetChannelSettings s t).TickIntervalMs * Millisecond)
        tickFrames := 0
        enableClientBroadcast := false
        removing := 0 }
    let p : ChanPtr := r.heap.length
    ({ r with
        heap := r.heap ++ [ch]
        allChannels := syncStore r.allChannels r.nextChannelId (some p)
        nextChannelId := (r.nextChannelId + 1) % 2 ^ 32 },
      some p, none)

/-- Function `InitChannels`:
`globalChannel, _ = CreateChannel(GLOBAL, nil)` followed by
`allChannels.Store(GlobalChannelId, globalChannel)`. -/
def InitChannels (s : GlobalSettingsType) (r : Registry) : Registry :=
  let res := CreateChannel s r ChannelType.GLOBAL none
  let r1 : Registry := { res.1 with globalChannel := res.2.1 }
  { r1 with allChannels := syncStore r1.allChannels GlobalChannelId r1.globalChannel }

/-- Method `Channel.IsRemoving`: `ch.removing > 0`. -/
def Channel.IsRemoving (ch : Channel) : Bool := decide (ch.removing > 0)

/-- Function `RemoveChannel`. `none` when `ch` is nil (no object at `p`) or when
`ch.inMsgQueue` is already closed, where Go's `close` panics. -/
def RemoveChannel (r : Registry) (p : ChanPtr) : Option Registry :=
  match r.heap[p]? with
  | none => none
  | some ch =>
    let ch1 : Channel := { ch with removing := toInt32 (ch.removing + 1) }
    if ch1.inMsgQueueClosed then none
    else
      let ch2 : Channel := { ch1 with inMsgQueueClosed := true }
      some { r with
        heap := r.heap.set p ch2
        allChannels := syncDelete r.allChannels ch2.id }

/-- Method `Channel.PutMessage` on the channel at `p`. `none` when `ch` is nil,
when the queue is closed (a send on a closed Go channel panics) and when the
queue is full (the send blocks). -/
def PutMessage (r : Registry) (p : ChanPtr) (msg : Message) (handler : MessageHandlerFunc)
    (conn : Option ConnPtr) (pack : MessagePack) : Option Registry :=
  match r.heap[p]? with
  | none => none
  | some ch =>
    if ch.IsRemoving then some r
    else if ch.inMsgQueueClosed then none
    else if inMsgQueueCap ≤ ch.inMsgQueue.length then none
    else
      let cm : channelMessage :=
        { ctx :=
            { MsgType := pack.MsgType
              Msg := msg
              Connection := conn
              Channel := some p
              Broadcast := pack.Broadcast
              StubId := pack.StubId
              ChannelId := pack.ChannelId }
          handler := handler }
      some { r with heap := r.heap.set p { ch with inMsgQueue := ch.inMsgQueue ++ [cm] } }

/-- Method `Connection.HasAuthorityOver`, for the receiver `c` (possibly nil)
and the channel at `p`. `none` is the nil dereference of `globalChannel`, or of
`ch` when the first comparison fails. -/
def HasAuthorityOver (r : Registry) (c : Option ConnPtr) (p : ChanPtr) : Option Bool :=
  match r.globalChannel with
  | none => none
  | some g =>
    match r.heap[g]? with
    | none => none
    | some gch =>
      if gch.ownerConnection = c then some true
      else
        match r.heap[p]? with
        | none => none
        | some ch => if ch.ownerConnection = c then some true else some false

/-! ## The channel loop -/

/-- What the connection layer and the wall clock answer during one iteration of
`Channel.Tick`: `GetConnection`, `Connection.IsRemoving`, and the value of
`time.Since(tickStart)` read after the `k`-th handler call of the iteration. -/
structure TickEnv where
  GetConnection : ConnectionId → Option ConnPtr
  connIsRemoving : ConnPtr → Bool
  elapsed : Nat → Int

/-- The calls one iteration of `Channel.Tick` makes into code outside
`channel.go`, in the order it makes them. -/
inductive TickEvent where
  | sendUnsubscribed (owner : ConnPtr) (ch : ChanPtr) (conn : ConnPtr)
  | dropped (cm : channelMessage)
  | handled (cm : channelMessage)
  deriving DecidableEq, Repr

/-- The test `conn == nil || conn.IsRemoving()`. -/
def connNilOrRemoving (env : TickEnv) (conn : Option ConnPtr) : Bool :=
  match conn with
  | none => true
  | some c => env.connIsRemoving c

/-- Lines 153-157 of `Tick`: a removing owner is reset to nil. -/
def gcOwner (env : TickEnv) (ch : Channel) : Channel :=
  match ch.ownerConnection with
  | none => ch
  | some o => if env.connIsRemoving o then { ch with ownerConnection := none } else ch

/-- Go's `delete(ch.subscribedConnections, connId)`. -/
def deleteSubscription (m : List (ConnectionId × ChannelSubscription)) (connId : ConnectionId) :
    List (ConnectionId × ChannelSubscription) :=
  m.filter (fun e => decide (e.1 ≠ connId))

/-- The body of the loop `for connId := range ch.subscribedConnections`
(lines 159-171) for the channel at `p`. -/
def gcSubscriber (env : TickEnv) (p : ChanPtr) (st : Channel × List TickEvent)
    (connId : ConnectionId) : Channel × List TickEvent :=
  let conn := env.GetConnection connId
  if connNilOrRemoving env conn then
    let ch1 : Channel :=
      { st.1 with subscribedConnections := deleteSubscription st.1.subscribedConnections connId }
    match ch1.ownerConnection with
    | none => (ch1, st.2)
    | some o =>
      if some o = conn then ({ ch1 with ownerConnection := none }, st.2)
      else
        match conn with
        | some c => (ch1, st.2 ++ [TickEvent.sendUnsubscribed o p c])
        | none => (ch1, st.2)
  else st

/-- Lines 152-172 of `Tick`, the phase under the comment "Tick connections":
the owner check, then the loop over the keys the map holds when the loop
starts (the loop deletes no key but the current one). -/
def tickGC (env : TickEnv) (p : ChanPtr) (ch : Channel) : Channel × List TickEvent :=
  let ch0 := gcOwner env ch
  (ch0.subscribedConnections.map Prod.fst).foldl (gcSubscriber env p) (ch0, [])

/-- The loop `for len(ch.inMsgQueue) > 0` (lines 177-191) over the queue
`q`. `n` counts the handler calls made so far in this iteration. The result is
what is left in the queue and the calls made. -/
def drain (tickInterval : Int) (elapsed : Nat → Int) :
    List channelMessage → Nat → List channelMessage × List TickEvent
  | [], _ => ([], [])
  | cm :: q, n =>
    match cm.ctx.Connection with
    | none =>
      let res := drain tickInterval elapsed q n
      (res.1, TickEvent.dropped cm :: res.2)
    | some _ =>
      if tickInterval > 0 ∧ elapsed (n + 1) ≥ tickInterval then (q, [TickEvent.handled cm])
      else
        let res := drain tickInterval elapsed q (n + 1)
        (res.1, TickEvent.handled cm :: res.2)

/-- One iteration of the loop of `Channel.Tick` on a channel object, up to the
call of `tickData` (lines 148-191); `none` is the `return` at the removing
check. `tickData` is defined outside the given sources; it, the metrics and the
sleep that end the iteration are not modelled, nor is what a handler does
beyond being called. -/
def tickChannel (env : TickEnv) (p : ChanPtr) (ch : Channel) : Option (Channel × List TickEvent) :=
  if ch.IsRemoving then none
  else
    let gc := tickGC env p ch
    let ch1 : Channel := { gc.1 with tickFrames := toInt64 (gc.1.tickFrames + 1) }
    let dr := drain ch1.tickInterval env.elapsed ch1.inMsgQueue 0
    some ({ ch1 with inMsgQueue := dr.1 }, gc.2 ++ dr.2)

/-- One iteration of `Tick` for the channel at `p`: the new state, the calls
made, and whether `Tick` returned. `none` when there is no object at `p`. -/
def tickIteration (r : Registry) (p : ChanPtr) (env : TickEnv) :
    Option (Registry × List TickEvent × Bool) :=
  match r.heap[p]? with
  | none => none
  | some ch =>
    match tickChannel env p ch with
    | none => some (r, [], true)
    | some res => some ({ r with heap := r.heap.set p res.1 }, res.2, false)

/-- Method `Channel.Tick` for the channel at `p`, one iteration for each entry
of `envs`, with nothing else running in between. The flag tells whether the loop
returned. -/
def Tick (r : Registry) (p : ChanPtr) : List TickEnv → Option (Registry × List TickEvent × Bool)
  | [] => some (r, [], false)
  | env :: envs =>
    match tickIteration r p env with
    | none => none
    | some (r1, ev, true) => some (r1, ev, true)
    | some (r1, ev, false) =>
      match Tick r1 p envs with
      | none => none
      | some (r2, ev2, b) => some (r2, ev ++ ev2, b)

/-! ## Runs -/

/-- A call into the package: the three registry functions, `PutMessage`, and
one iteration of a channel's `Tick` loop. -/
inductive Call where
  | initChannels
  | createChannel (t : ChannelType) (owner : Option ConnPtr)
  | removeChannel (p : ChanPtr)
  | putMessage (p : ChanPtr) (msg : Message) (handler : MessageHandlerFunc)
      (conn : Option ConnPtr) (pack : MessagePack)
  | tick (p : ChanPtr) (env : TickEnv)

/-- Whether the call is `InitChannels`. -/
def Call.isInit : Call → Bool
  | Call.initChannels => true
  | _ => false

/-- Whether the call is `RemoveChannel` on the object `globalChannel` points to. -/
def Call.removesGlobal (r : Registry) : Call → Bool
  | Call.removeChannel p => decide (r.globalChannel = some p)
  | _ => false

/-- The state after one call; `none` when the call panics or blocks. -/
def step (s : GlobalSettingsType) (r : Registry) : Call → Option Registry
  | Call.initChannels => some (InitChannels s r)
  | Call.createChannel t owner => some (CreateChannel s r t owner).1
  | Call.removeChannel p => RemoveChannel r p
  | Call.putMessage p msg handler conn pack => PutMessage r p msg handler conn pack
  | Call.tick p env => (tickIteration r p env).map (fun res => res.1)

/-- The state after a sequence of calls made one after the other. -/
def run (s : GlobalSettingsType) : Registry → List Call → Option Registry
  | r, [] => some r
  | r, c :: cs =>
    match step s r c with
    | none => none
    | some r1 => run s r1 cs

/-- Whether no call of the run is `RemoveChannel` on the GLOBAL channel object
of the state it is made in. -/
def sparesGlobal (s : GlobalSettingsType) : Registry → List Call → Bool
  | _, [] => true
  | r, c :: cs =>
    !(c.removesGlobal r) &&
      match step s r c with
      | none => true
      | some r1 => sparesGlobal s r1 cs

/-- The id field of the channel each call of a sequence of `CreateChannel` calls
returns, `none` for a call that returns an error. -/
def createIds (s : GlobalSettingsType) :
    Registry → List (ChannelType × Option ConnPtr) → List (Option ChannelId)
  | _, [] => []
  | r, (t, owner) :: cs =>
    let res := CreateChannel s r t owner
    (res.2.1.bind (fun p => (res.1.heap[p]?).map Channel.id)) :: createIds s res.1 cs

/-- Invariant 1 of the data model: every id present in `allChannels` maps to a
channel object whose `id` field is that id. -/
def IdsMatch (r : Registry) : Prop :=
  ∀ id v, r.allChannels id = some v →
    ∃ p ch, v = some p ∧ r.heap[p]? = some ch ∧ ch.id = id

/-- Whether the connection behind a subscriber key exists and is not removing. -/
def connLive (env : TickEnv) (connId : ConnectionId) : Bool :=
  match env.GetConnection connId with
  | none => false
  | some c => !env.connIsRemoving c

/-- The fields of a channel that the garbage-collection phase of `Tick` never
assigns. -/
def Channel.frame (ch : Channel) :
    ChannelId × ChannelType × Int × Bool × List channelMessage × Int × Int :=
  (ch.id, ch.channelType, ch.removing, ch.inMsgQueueClosed, ch.inMsgQueue, ch.tickInterval,
    ch.tickFrames)

/-- Every channel object is either live (queue open, `removing = 0`) or removed
once (queue closed, `removing = 1`). -/
def Settled (r : Registry) : Prop :=
  ∀ (p : ChanPtr) (ch : Channel), r.heap[p]? = some ch →
    (ch.inMsgQueueClosed = false ∧ ch.removing = 0) ∨
      (ch.inMsgQueueClosed = true ∧ ch.removing = 1)

/-- The channel object at `p` has been removed and its queue holds `q`. -/
def Frozen (p : ChanPtr) (q : List channelMessage) (r : Registry) : Prop :=
  ∃ ch, r.heap[p]? = some ch ∧ ch.removing = 1 ∧ ch.inMsgQueueClosed = true ∧ ch.inMsgQueue = q

/-- The state of a registry that was initialised first and has not run out of
ids: `globalChannel` is the object at address 0, of type GLOBAL, registered
under id 0; the object at address `p` has id `p mod 2^32`, and the id counter is
the number of objects modulo `2^32`. -/
def GlobalInPlace (r : Registry) : Prop :=
  r.globalChannel = some 0 ∧ r.allChannels GlobalChannelId = some (some 0) ∧
    (∃ ch, r.heap[0]? = some ch ∧ ch.channelType = ChannelType.GLOBAL) ∧
    (∀ (p : ChanPtr) (ch : Channel), r.heap[p]? = some ch → ch.id = p % 2 ^ 32) ∧
    r.nextChannelId = r.heap.length % 2 ^ 32

/-! ## Broadcast -/

/-- The body of the loop of `Channel.Broadcast` for the key `connId`: the
connection on which `c.Send(ctx)` is called, or `none` when the body runs into
one of its two `continue` statements. -/
def broadcastTarget (env : TickEnv) (ctx : MessageContext) (connId : ConnectionId) :
    Option ConnPtr :=
  match env.GetConnection connId with
  | none => none
  | some c =>
    if ctx.Broadcast = BroadcastType.ALL_BUT_SENDER ∧ some c = ctx.Connection then none
    else some c

/-- Method `Channel.Broadcast` with receiver `_p`: the connections on which
`Send(ctx)` is called, in the order of the loop. The loop ranges over
`ctx.Channel.subscribedConnections`; the receiver is not read. `none` is the nil
dereference of `ctx.Channel`. -/
def Broadcast (r : Registry) (_p : ChanPtr) (env : TickEnv) (ctx : MessageContext) :
    Option (List ConnPtr) :=
  match ctx.Channel with
  | none => none
  | some q =>
    match r.heap[q]? with
    | none => none
    | some cch =>
      some ((cch.subscribedConnections.map Prod.fst).filterMap (broadcastTarget env ctx))

/-- The messages whose handler an iteration of `Tick` called, in call order. -/
def handledMessages (ev : List TickEvent) : List channelMessage :=
  ev.filterMap (fun e =>
    match e with
    | TickEvent.handled cm => some cm
    | _ => none)

/-! ## Data merge -/

/-- Modelled from the spec: `DataMergeOptions` is declared in a source file that
is not given (only its test is); the spec's options `replace_repeated`,
`list_size_limit` and `delete_nil_map_value` under the field names the test
uses. A limit of 0, the Go zero value, means no limit. -/
structure DataMergeOptions where
  ShouldReplaceRepeated : Bool
  ListSizeLimit : Nat
  ShouldDeleteNilMapValue : Bool
  deriving DecidableEq, Repr

/-- Modelled from the spec: `proto.TestMergeMessage`, the record of the merge
test, is generated code that is not given: a list of strings and a map from
integers to nullable string wrappers (`none` is the nil value). -/
structure TestMergeMessage where
  list : List String
  kv : List (Int × Option String)
  deriving DecidableEq, Repr

/-- Modelled from the spec: "retain only the last N elements of each list",
with 0 for no limit. -/
def limitList (n : Nat) (l : List String) : List String :=
  if n = 0 then l else l.drop (l.length - n)

/-- Modelled from the spec: the merge of a list field, "lists in `src` replace
lists in `dst` (default is append)", then the size limit. -/
def mergeList (options : DataMergeOptions) (dst src : List String) : List String :=
  limitList options.ListSizeLimit (if options.ShouldReplaceRepeated then src else dst ++ src)

/-- Modelled from the spec: the merge of one map entry of `src` into the map of
`dst`: a nil value removes the key when `delete_nil_map_value` is set and
otherwise leaves `dst` as it is; any other value overwrites the entry. -/
def mergeKvEntry (options : DataMergeOptions) (dst : List (Int × Option String))
    (e : Int × Option String) : List (Int × Option String) :=
  match e.2 with
  | none => if options.ShouldDeleteNilMapValue then dst.filter (fun d => decide (d.1 ≠ e.1)) else dst
  | some v =>
    if dst.any (fun d => decide (d.1 = e.1)) then
      dst.map (fun d => if d.1 = e.1 then (d.1, some v) else d)
    else dst ++ [(e.1, some v)]

/-- Modelled from the spec: `mergeWithOptions(dst, src, options)` is defined in a
source file that is not given (only its test `TestDataMergeOptions` is); the
merge `dst ← dst ⊕ src` of section 4.B on the record of the test. The result is
the new value of `dst`. -/
def mergeWithOptions (dst src : TestMergeMessage) (options : DataMergeOptions) :
    TestMergeMessage :=
  { list := mergeList options dst.list src.list
    kv := src.kv.foldl (mergeKvEntry options) dst.kv }

/-! ## Concrete states used to exercise the theorems -/

/-- A connection layer in which connection ids 1 and 3 resolve to the
connections at addresses 11 and 13, id 2 resolves to nothing, and connection 13
is removing. -/
def sampleEnv : TickEnv :=
  { GetConnection := fun k => if k = 1 then some 11 else if k = 3 then some 13 else none
    connIsRemoving := fun c => decide (c = 13)
    elapsed := fun _ => 0 }

/-- A message pack addressed to channel 1. -/
def samplePack : MessagePack :=
  { ChannelId := 1, Broadcast := BroadcastType.NO_BROADCAST, StubId := 0, MsgType := 3 }

/-- The calls made before the removal in the sample run: `InitChannels`, a TEST
channel owned by connection 11 (address 1, id 1), and one message put to it. -/
def samplePre : List Call :=
  [Call.initChannels, Call.createChannel ChannelType.TEST (some 11),
    Call.putMessage 1 [104] 5 (some 11) samplePack]

/-- The calls made after the removal in the sample run. -/
def sampleLater : List Call :=
  [Call.putMessage 1 [105] 5 (some 11) samplePack, Call.tick 1 sampleEnv,
    Call.createChannel ChannelType.SUBWORLD none]

/-- The sample state before the removal. -/
def sampleBefore : Registry := (run GlobalSettings initRegistry samplePre).getD initRegistry

/-- The sample state right after `RemoveChannel` on the channel at address 1. -/
def sampleRemoved : Registry := (RemoveChannel sampleBefore 1).getD initRegistry

/-- The sample state after the later calls. -/
def sampleAfter : Registry := (run GlobalSettings sampleRemoved sampleLater).getD initRegistry

/-- A channel owned by the removing connection 13, with subscribers 1, 2 and 3. -/
def sampleChannel : Channel :=
  { id := 1, channelType := ChannelType.TEST, state := ChannelState.OPEN,
    ownerConnection := some 13,
    subscribedConnections :=
      [(1, ⟨50, [], false, none⟩), (2, ⟨100, [], false, none⟩), (3, ⟨20, [], true, none⟩)],
    metadata := "", inMsgQueue := [], inMsgQueueClosed := false, tickInterval := 10000000,
    tickFrames := 0, enableClientBroadcast := false, removing := 0 }

/-- A TEST channel created first (id 0) with owner connection 11, to which
connection ids 1, 2 and 3 are subscribed; its queue holds three messages, the
second from a sender that is gone, and its tick interval is 0. -/
def sampleOwned : Channel :=
  { id := 0, channelType := ChannelType.TEST, state := ChannelState.OPEN,
    ownerConnection := some 11,
    subscribedConnections :=
      [(1, ⟨50, [], false, none⟩), (2, ⟨100, [], false, none⟩), (3, ⟨20, [], true, none⟩)],
    metadata := "",
    inMsgQueue :=
      [⟨⟨3, [1], some 11, some 0, BroadcastType.NO_BROADCAST, 0, 0⟩, 5⟩,
        ⟨⟨3, [2], none, some 0, BroadcastType.NO_BROADCAST, 0, 0⟩, 5⟩,
        ⟨⟨3, [3], some 13, some 0, BroadcastType.NO_BROADCAST, 0, 0⟩, 6⟩],
    inMsgQueueClosed := false, tickInterval := 0,
    tickFrames := 0, enableClientBroadcast := false, removing := 0 }

/-- The package state that holds `sampleOwned` at address 0. -/
def sampleRegistry : Registry :=
  { heap := [sampleOwned], nextChannelId := 1,
    allChannels := fun k => if k = 0 then some (some 0) else none,
    globalChannel := none }

/-- A message context on the sample channel, sent by connection 13, with the
given broadcast mode. -/
def sampleCtx (mode : BroadcastType) : MessageContext :=
  { MsgType := 3, Msg := [7], Connection := some 13, Channel := some 0, Broadcast := mode,
    StubId := 0, ChannelId := 0 }

/-- A connection layer in which nothing is removing and connection ids 1 and 3
resolve to the connections at addresses 11 and 13. -/
def calmEnv : TickEnv :=
  { GetConnection := fun k => if k = 1 then some 11 else if k = 3 then some 13 else none
    connIsRemoving := fun _ => false
    elapsed := fun _ => 0 }

/-! ## Facts about the functions -/

theorem CreateChannel_fail (s : GlobalSettingsType) (r : Registry) (t : ChannelType)
    (owner : Option ConnPtr) (h : t = ChannelType.GLOBAL ∧ r.globalChannel ≠ none) :
    CreateChannel s r t owner =
      (r, none, some "failed to create WORLD channel as it already exists") := by
  unfold CreateChannel
  rw [if_pos h]

theorem CreateChannel_ok (s : GlobalSettingsType) (r : Registry) (t : ChannelType)
    (owner : Option ConnPtr) (h : ¬ (t = ChannelType.GLOBAL ∧ r.globalChannel ≠ none)) :
    ∃ ch : Channel,
      CreateChannel s r t owner =
        ({ r with
            heap := r.heap ++ [ch]
            allChannels := syncStore r.allChannels r.nextChannelId (some r.heap.length)
            nextChannelId := (r.nextChannelId + 1) % 2 ^ 32 },
          some r.heap.length, none) ∧
      ch.id = r.nextChannelId ∧ ch.channelType = t ∧ ch.ownerConnection = owner ∧
      ch.state = (if owner = none then ChannelState.INIT else ChannelState.OPEN) ∧
      ch.removing = 0 ∧ ch.inMsgQueueClosed = false ∧ ch.inMsgQueue = [] := by
  unfold CreateChannel
  rw [if_neg h]
  exact ⟨_, rfl, rfl, rfl, rfl, rfl, rfl, rfl, rfl⟩

/-! ## C2 -/

/-- C2. `CreateChannel(t, owner)` returns an error exactly when `t` is GLOBAL
and `globalChannel` is non-nil, and it returns no channel exactly when it
returns an error; so in every other case it returns a channel and no error. -/
theorem CreateChannel_error_iff (s : GlobalSettingsType) (r : Registry) (t : ChannelType)
    (owner : Option ConnPtr) :
    ((CreateChannel s r t owner).2.2 ≠ none ↔
        (t = ChannelType.GLOBAL ∧ r.globalChannel ≠ none)) ∧
      ((CreateChannel s r t owner).2.1 = none ↔ (CreateChannel s r t owner).2.2 ≠ none) := by
  by_cases h : t = ChannelType.GLOBAL ∧ r.globalChannel ≠ none
  · rw [CreateChannel_fail s r t owner h]
    simp [h]
  · obtain ⟨ch, hc, -⟩ := CreateChannel_ok s r t owner h
    rw [hc]
    simp [h]

/-! ## C5 -/

/-- Where `AddMs` is right: when `ms` milliseconds are fewer than `2^32`
nanoseconds (and the sum fits in an `int64`) it adds `ms * 1000000`. -/
theorem AddMs_small (t : Int) (ms : Nat) (hms : ms * 1000000 < 2 ^ 32)
    (hlo : -2 ^ 63 ≤ t + ms * 1000000) (hhi : t + ms * 1000000 < 2 ^ 63) :
    AddMs t ms = t + ms * 1000000 := by
  have e : (Millisecond.toNat % 2 ^ 32 * ms) % 2 ^ 32 = ms * 1000000 := by
    have h1 : Millisecond.toNat = 1000000 := rfl
    rw [h1]
    omega
  unfold AddMs toInt64
  show (_ : Int) = _
  rw [e]
  push_cast
  omega

/-- C5. At `t = 0`, `ms = 4295` the method returns 32704 nanoseconds, while `ms`
milliseconds are 4295000000 nanoseconds (a sum that fits in an `int64`): the
product `uint32(time.Millisecond)*ms` is reduced modulo `2^32`. -/
theorem AddMs_wraps_at_4295 :
    AddMs 0 4295 = 32704 ∧ (0 : Int) + 4295 * 1000000 = 4295000000 ∧
      (4295000000 : Int) < 2 ^ 63 ∧ 4295 < 2 ^ 32 := by
  decide

/-! ## C6 -/

/-- C6. With the GLOBAL channel in place (`globalChannel` points to `gch`) and
`ch` the channel at `p`, `c.HasAuthorityOver(ch)` returns, and returns true
exactly when `c` is the owner of the GLOBAL channel or the owner of `ch`. -/
theorem HasAuthorityOver_iff (r : Registry) (c : Option ConnPtr) (g p : ChanPtr)
    (gch ch : Channel) (hg : r.globalChannel = some g) (hgch : r.heap[g]? = some gch)
    (hch : r.heap[p]? = some ch) :
    ∃ b, HasAuthorityOver r c p = some b ∧
      (b = true ↔ (gch.ownerConnection = c ∨ ch.ownerConnection = c)) := by
  unfold HasAuthorityOver
  simp only [hg, hgch, hch]
  by_cases h1 : gch.ownerConnection = c
  · exact ⟨true, by simp [h1], by simp [h1]⟩
  · by_cases h2 : ch.ownerConnection = c
    · exact ⟨true, by simp [h1, h2], by simp [h2]⟩
    · exact ⟨false, by simp [h1, h2], by simp [h1, h2]⟩

/-- C6 at a concrete state: GLOBAL without owner, a TEST channel owned by
connection 7; connection 7 has authority over the TEST channel. -/
theorem HasAuthorityOver_iff_witness :
    ∃ b, HasAuthorityOver
        (CreateChannel GlobalSettings (InitChannels GlobalSettings initRegistry)
          ChannelType.TEST (some 7)).1 (some 7) 1 = some b ∧
      (b = true ↔ ((none : Option ConnPtr) = some 7 ∨ (some 7 : Option ConnPtr) = some 7)) :=
  HasAuthorityOver_iff
    (CreateChannel GlobalSettings (InitChannels GlobalSettings initRegistry)
      ChannelType.TEST (some 7)).1 (some 7) 0 1
    { id := 0, channelType := ChannelType.GLOBAL, state := ChannelState.INIT,
      ownerConnection := none, subscribedConnections := [], metadata := "",
      inMsgQueue := [], inMsgQueueClosed := false, tickInterval := 10000000,
      tickFrames := 0, enableClientBroadcast := false, removing := 0 }
    { id := 1, channelType := ChannelType.TEST, state := ChannelState.OPEN,
      ownerConnection := some 7, subscribedConnections := [], metadata := "",
      inMsgQueue := [], inMsgQueueClosed := false, tickInterval := 10000000,
      tickFrames := 0, enableClientBroadcast := false, removing := 0 }
    (by decide) (by decide) (by decide)

/-! ## C8 -/

/-- C8. A channel returned by `CreateChannel` has state INIT when `owner` is
nil and state OPEN when an owner was given. -/
theorem CreateChannel_state (s : GlobalSettingsType) (r : Registry) (t : ChannelType)
    (owner : Option ConnPtr) (p : ChanPtr)
    (h : (CreateChannel s r t owner).2.1 = some p) :
    ∃ ch, (CreateChannel s r t owner).1.heap[p]? = some ch ∧
      (owner = none → ch.state = ChannelState.INIT) ∧
      (owner ≠ none → ch.state = ChannelState.OPEN) := by
  by_cases hf : t = ChannelType.GLOBAL ∧ r.globalChannel ≠ none
  · rw [CreateChannel_fail s r t owner hf] at h
    simp at h
  · obtain ⟨ch, hc, -, -, -, hst, -⟩ := CreateChannel_ok s r t owner hf
    rw [hc] at h ⊢
    simp only [Option.some.injEq] at h
    subst h
    refine ⟨ch, by simp, ?_, ?_⟩
    · intro ho
      rw [hst, if_pos ho]
    · intro ho
      rw [hst, if_neg ho]

/-- C8 at a concrete call: a TEST channel created with owner 7 from the initial
state is the object at address 0 and is OPEN. -/
theorem CreateChannel_state_witness :
    ∃ ch, (CreateChannel GlobalSettings initRegistry ChannelType.TEST (some 7)).1.heap[0]? = some ch ∧
      ((some 7 : Option ConnPtr) = none → ch.state = ChannelState.INIT) ∧
      ((some 7 : Option ConnPtr) ≠ none → ch.state = ChannelState.OPEN) :=
  CreateChannel_state GlobalSettings initRegistry ChannelType.TEST (some 7) 0 (by decide)

/-! ## C9 -/

/-- C9. `GetChannelSettings(t)` returns the entry stored for `t` when the map
has one; otherwise it returns what the map index gives for GLOBAL: the entry
stored for GLOBAL when there is one (and Go's zero value when there is none). -/
theorem GetChannelSettings_fallback (s : GlobalSettingsType) (t : ChannelType) :
    (∀ e, s.ChannelSettings t = some e → GetChannelSettings s t = e) ∧
      (s.ChannelSettings t = none →
        (∀ g, s.ChannelSettings ChannelType.GLOBAL = some g → GetChannelSettings s t = g) ∧
        (s.ChannelSettings ChannelType.GLOBAL = none → GetChannelSettings s t = ⟨0, 0⟩)) := by
  refine ⟨?_, ?_⟩
  · intro e he
    simp [GetChannelSettings, settingsIndex, he]
  · intro hn
    refine ⟨?_, ?_⟩
    · intro g hg
      simp [GetChannelSettings, settingsIndex, hn, hg]
    · intro hg
      simp [GetChannelSettings, settingsIndex, hn, hg]

/-- C9 at the initial settings, which hold an entry for GLOBAL only: TEST falls
back to the GLOBAL entry. -/
theorem GetChannelSettings_fallback_witness :
    GlobalSettings.ChannelSettings ChannelType.TEST = none ∧
      GlobalSettings.ChannelSettings ChannelType.GLOBAL = some ⟨10, 20⟩ ∧
      GetChannelSettings GlobalSettings ChannelType.TEST = ⟨10, 20⟩ :=
  ⟨by decide, by decide,
    ((GetChannelSettings_fallback GlobalSettings ChannelType.TEST).2 (by decide)).1 ⟨10, 20⟩
      (by decide)⟩

/-! ## C1 -/

/-- While `globalChannel` is nil every `CreateChannel` call succeeds, and the
`i`-th call of a sequence returns a channel whose id is the counter at the start
plus `i`, reduced modulo `2^32`. -/
theorem createIds_getElem (s : GlobalSettingsType) :
    ∀ (calls : List (ChannelType × Option ConnPtr)) (r : Registry) (i : Nat),
      r.globalChannel = none → r.nextChannelId < 2 ^ 32 → i < calls.length →
      (createIds s r calls)[i]? = some (some ((r.nextChannelId + i) % 2 ^ 32)) := by
  intro calls
  induction calls with
  | nil => intro r i _ _ hi; simp at hi
  | cons c cs ih =>
    intro r i hg hn hi
    obtain ⟨t, owner⟩ := c
    have hok : ¬ (t = ChannelType.GLOBAL ∧ r.globalChannel ≠ none) := by simp [hg]
    obtain ⟨ch, hc, hid, -⟩ := CreateChannel_ok s r t owner hok
    simp only [createIds, hc]
    cases i with
    | zero =>
      simp only [List.getElem?_cons_zero, Nat.add_zero]
      have hm : r.nextChannelId % 2 ^ 32 = r.nextChannelId := Nat.mod_eq_of_lt hn
      rw [hm]
      simp [hid]
    | succ j =>
      simp only [List.getElem?_cons_succ]
      have hj : j < cs.length := by simpa using hi
      have e : ((r.nextChannelId + 1) % 2 ^ 32 + j) % 2 ^ 32
          = (r.nextChannelId + (j + 1)) % 2 ^ 32 := by
        simp only [ChannelId] at *
        omega
      refine (ih _ j ?_ ?_ hj).trans ?_
      · exact hg
      · exact Nat.mod_lt _ (Nat.two_pow_pos 32)
      · simp only [e]

/-- One result for each call. -/
theorem createIds_length (s : GlobalSettingsType) :
    ∀ (calls : List (ChannelType × Option ConnPtr)) (r : Registry),
      (createIds s r calls).length = calls.length := by
  intro calls
  induction calls with
  | nil => intro r; rfl
  | cons c cs ih =>
    intro r
    obtain ⟨t, owner⟩ := c
    simp only [createIds, List.length_cons]
    rw [ih]

/-- C1, counterexample. In a sequence of `2^32 + 1` calls
`CreateChannel(SUBWORLD, nil)` from the initial state, the first call and the
last call both succeed and both return a channel with id 0. -/
theorem createIds_collide :
    (createIds GlobalSettings initRegistry
        (List.replicate (2 ^ 32 + 1) (ChannelType.SUBWORLD, none)))[0]? = some (some 0) ∧
      (createIds GlobalSettings initRegistry
        (List.replicate (2 ^ 32 + 1) (ChannelType.SUBWORLD, none)))[2 ^ 32]? = some (some 0) := by
  have hn : initRegistry.nextChannelId = 0 := rfl
  have hlen : (List.replicate (2 ^ 32 + 1) (ChannelType.SUBWORLD, (none : Option ConnPtr))).length
      = 2 ^ 32 + 1 := List.length_replicate _ _
  have h0 : 0 < (List.replicate (2 ^ 32 + 1) (ChannelType.SUBWORLD, (none : Option ConnPtr))).length := by
    rw [hlen]
    exact Nat.succ_pos _
  have h1 : 2 ^ 32 < (List.replicate (2 ^ 32 + 1) (ChannelType.SUBWORLD, (none : Option ConnPtr))).length := by
    rw [hlen]
    exact Nat.lt_succ_self _
  constructor
  · rw [createIds_getElem GlobalSettings _ initRegistry 0 rfl (Nat.two_pow_pos 32) h0, hn,
      Nat.zero_add, Nat.zero_mod]
  · rw [createIds_getElem GlobalSettings _ initRegistry (2 ^ 32) rfl (Nat.two_pow_pos 32) h1, hn,
      Nat.zero_add, Nat.mod_self]

/-- C1, amended. In a sequence of at most `2^32` `CreateChannel` calls from the
initial state, any two calls that succeed return channels with different ids. -/
theorem createIds_injective (s : GlobalSettingsType)
    (calls : List (ChannelType × Option ConnPtr)) (hlen : calls.length ≤ 2 ^ 32)
    (i j : Nat) (a b : ChannelId) (hij : i ≠ j)
    (hi : (createIds s initRegistry calls)[i]? = some (some a))
    (hj : (createIds s initRegistry calls)[j]? = some (some b)) : a ≠ b := by
  have hlen2 := createIds_length s calls initRegistry
  have hi2 : i < calls.length := by
    rw [← hlen2]
    exact (List.getElem?_eq_some_iff.mp hi).1
  have hj2 : j < calls.length := by
    rw [← hlen2]
    exact (List.getElem?_eq_some_iff.mp hj).1
  rw [createIds_getElem s calls initRegistry i rfl (by decide) hi2] at hi
  rw [createIds_getElem s calls initRegistry j rfl (by decide) hj2] at hj
  simp only [Option.some.injEq] at hi hj
  have h0 : initRegistry.nextChannelId = 0 := rfl
  rw [h0] at hi hj
  simp only [ChannelId] at *
  omega

/-- C1, amended, at a concrete sequence: two calls, returning ids 0 and 1. -/
theorem createIds_injective_witness : (0 : ChannelId) ≠ 1 :=
  createIds_injective GlobalSettings
    [(ChannelType.SUBWORLD, none), (ChannelType.TEST, some 7)] (by decide) 0 1 0 1
    (by decide) (by decide) (by decide)

/-! ## The shape of one step -/

theorem heap_set_getElem? (h : List Channel) (p q : Nat) (ch ch1 : Channel)
    (hp : h[p]? = some ch) : (h.set p ch1)[q]? = if q = p then some ch1 else h[q]? := by
  have hlt : p < h.length := (List.getElem?_eq_some_iff.mp hp).1
  rw [List.getElem?_set]
  by_cases hq : q = p
  · subst hq
    simp [hlt]
  · have hq2 : ¬ p = q := fun e => hq e.symm
    simp [hq, hq2]

theorem heap_set_self (h : List Channel) (p : Nat) (ch : Channel) (hp : h[p]? = some ch) :
    h.set p ch = h := by
  apply List.ext_getElem?
  intro q
  rw [heap_set_getElem? h p q ch ch hp]
  by_cases hq : q = p
  · subst hq
    simp [hp]
  · simp [hq]

theorem RemoveChannel_eq (r r1 : Registry) (p : ChanPtr) (h : RemoveChannel r p = some r1) :
    ∃ ch, r.heap[p]? = some ch ∧ ch.inMsgQueueClosed = false ∧
      r1 = { r with
        heap := r.heap.set p
          { ch with removing := toInt32 (ch.removing + 1), inMsgQueueClosed := true }
        allChannels := syncDelete r.allChannels ch.id } := by
  unfold RemoveChannel at h
  cases hp : r.heap[p]? with
  | none => simp [hp] at h
  | some ch =>
    simp only [hp] at h
    by_cases hc : ch.inMsgQueueClosed = true
    · simp [hc] at h
    · simp only [hc] at h
      simp only [Bool.false_eq_true, if_false, Option.some.injEq] at h
      exact ⟨ch, rfl, by simpa using hc, h.symm⟩

theorem PutMessage_eq (r r1 : Registry) (p : ChanPtr) (msg : Message)
    (handler : MessageHandlerFunc) (conn : Option ConnPtr) (pack : MessagePack)
    (h : PutMessage r p msg handler conn pack = some r1) :
    ∃ ch, r.heap[p]? = some ch ∧
      ((ch.IsRemoving = true ∧ r1 = r) ∨
        (ch.IsRemoving = false ∧ ∃ cm,
          r1 = { r with heap := r.heap.set p { ch with inMsgQueue := ch.inMsgQueue ++ [cm] } })) := by
  unfold PutMessage at h
  cases hp : r.heap[p]? with
  | none => simp [hp] at h
  | some ch =>
    simp only [hp] at h
    refine ⟨ch, rfl, ?_⟩
    by_cases hr : ch.IsRemoving = true
    · rw [if_pos hr] at h
      exact Or.inl ⟨hr, (Option.some.inj h).symm⟩
    · rw [if_neg hr] at h
      by_cases hc : ch.inMsgQueueClosed = true
      · rw [if_pos hc] at h
        exact absurd h (by simp)
      · rw [if_neg hc] at h
        by_cases hf : inMsgQueueCap ≤ ch.inMsgQueue.length
        · rw [if_pos hf] at h
          exact absurd h (by simp)
        · rw [if_neg hf] at h
          exact Or.inr ⟨by simpa using hr, _, (Option.some.inj h).symm⟩

theorem gcSubscriber_frame (env : TickEnv) (p : ChanPtr) (st : Channel × List TickEvent)
    (connId : ConnectionId) : (gcSubscriber env p st connId).1.frame = st.1.frame := by
  unfold gcSubscriber
  simp only
  split
  · split
    · rfl
    · split
      · rfl
      · split <;> rfl
  · rfl

theorem gcFold_frame (env : TickEnv) (p : ChanPtr) :
    ∀ (ks : List ConnectionId) (st : Channel × List TickEvent),
      (ks.foldl (gcSubscriber env p) st).1.frame = st.1.frame := by
  intro ks
  induction ks with
  | nil => intro st; rfl
  | cons k ks ih =>
    intro st
    rw [List.foldl_cons, ih, gcSubscriber_frame]

theorem gcOwner_frame (env : TickEnv) (ch : Channel) : (gcOwner env ch).frame = ch.frame := by
  unfold gcOwner
  split
  · rfl
  · split <;> rfl

theorem tickGC_frame (env : TickEnv) (p : ChanPtr) (ch : Channel) :
    (tickGC env p ch).1.frame = ch.frame := by
  unfold tickGC
  simp only
  rw [gcFold_frame, gcOwner_frame]

theorem tickChannel_eq (env : TickEnv) (p : ChanPtr) (ch ch1 : Channel) (ev : List TickEvent)
    (h : tickChannel env p ch = some (ch1, ev)) :
    ch.IsRemoving = false ∧ ch1.id = ch.id ∧ ch1.channelType = ch.channelType ∧
      ch1.removing = ch.removing ∧ ch1.inMsgQueueClosed = ch.inMsgQueueClosed := by
  unfold tickChannel at h
  by_cases hr : ch.IsRemoving = true
  · simp [hr] at h
  · simp only [hr, Bool.false_eq_true, if_false, Option.some.injEq, Prod.mk.injEq] at h
    have hf := tickGC_frame env p ch
    simp only [Channel.frame, Prod.mk.injEq] at hf
    obtain ⟨h1, h2, h3, h4, -⟩ := hf
    obtain ⟨hch, -⟩ := h
    subst hch
    exact ⟨by simpa using hr, h1, h2, h3, h4⟩

theorem tickIteration_eq (r r1 : Registry) (p : ChanPtr) (env : TickEnv) (ev : List TickEvent)
    (b : Bool) (h : tickIteration r p env = some (r1, ev, b)) :
    ∃ ch, r.heap[p]? = some ch ∧
      ((ch.IsRemoving = true ∧ r1 = r ∧ ev = [] ∧ b = true) ∨
        (∃ ch1, tickChannel env p ch = some (ch1, ev) ∧
          r1 = { r with heap := r.heap.set p ch1 } ∧ b = false)) := by
  unfold tickIteration at h
  cases hp : r.heap[p]? with
  | none => simp [hp] at h
  | some ch =>
    simp only [hp] at h
    refine ⟨ch, rfl, ?_⟩
    cases ht : tickChannel env p ch with
    | none =>
      simp only [ht, Option.some.injEq, Prod.mk.injEq] at h
      have hr : ch.IsRemoving = true := by
        unfold tickChannel at ht
        by_cases hr : ch.IsRemoving = true
        · exact hr
        · simp [hr] at ht
      exact Or.inl ⟨hr, h.1.symm, h.2.1.symm, h.2.2.symm⟩
    | some res =>
      simp only [ht, Option.some.injEq, Prod.mk.injEq] at h
      obtain ⟨c1, e1⟩ := res
      refine Or.inr ⟨c1, ?_, h.1.symm, h.2.2.symm⟩
      rw [← h.2.1]

theorem step_tick_eq (s : GlobalSettingsType) (r r1 : Registry) (p : ChanPtr) (env : TickEnv)
    (h : step s r (Call.tick p env) = some r1) :
    ∃ ev b, tickIteration r p env = some (r1, ev, b) := by
  simp only [step, Option.map_eq_some'] at h
  obtain ⟨⟨r2, ev, b⟩, h1, h2⟩ := h
  simp only at h2
  subst h2
  exact ⟨ev, b, h1⟩

/-- What `RemoveChannel`, `PutMessage` and one `Tick` iteration do to the
package state: nothing, or they replace one channel object by one with the same
id and type; only `RemoveChannel` touches `allChannels`, where it deletes the id
of that object. -/
theorem step_set_shape (s : GlobalSettingsType) (r r1 : Registry) (c : Call)
    (hc : c.isInit = false) (hcr : ∀ t owner, c ≠ Call.createChannel t owner)
    (h : step s r c = some r1) :
    ∃ p ch ch1, r.heap[p]? = some ch ∧ r1.heap = r.heap.set p ch1 ∧ ch1.id = ch.id ∧
      ch1.channelType = ch.channelType ∧ r1.nextChannelId = r.nextChannelId ∧
      r1.globalChannel = r.globalChannel ∧
      (r1.allChannels = r.allChannels ∨
        (c = Call.removeChannel p ∧ r1.allChannels = syncDelete r.allChannels ch.id)) := by
  cases c with
  | initChannels => simp [Call.isInit] at hc
  | createChannel t owner => exact absurd rfl (hcr t owner)
  | removeChannel p =>
    obtain ⟨ch, hp, -, rfl⟩ := RemoveChannel_eq r r1 p h
    exact ⟨p, ch, _, hp, rfl, rfl, rfl, rfl, rfl, Or.inr ⟨rfl, rfl⟩⟩
  | putMessage p msg handler conn pack =>
    obtain ⟨ch, hp, h1 | ⟨-, cm, rfl⟩⟩ := PutMessage_eq r r1 p msg handler conn pack h
    · obtain ⟨-, rfl⟩ := h1
      exact ⟨p, ch, ch, hp, (heap_set_self _ p ch hp).symm, rfl, rfl, rfl, rfl, Or.inl rfl⟩
    · exact ⟨p, ch, _, hp, rfl, rfl, rfl, rfl, rfl, Or.inl rfl⟩
  | tick p env =>
    obtain ⟨ev, b, ht⟩ := step_tick_eq s r r1 p env h
    obtain ⟨ch, hp, h1 | ⟨ch1, htc, rfl, -⟩⟩ := tickIteration_eq r r1 p env ev b ht
    · obtain ⟨-, rfl, -, -⟩ := h1
      exact ⟨p, ch, ch, hp, (heap_set_self _ p ch hp).symm, rfl, rfl, rfl, rfl, Or.inl rfl⟩
    · obtain ⟨-, hid, hty, -, -⟩ := tickChannel_eq env p ch ch1 ev htc
      exact ⟨p, ch, ch1, hp, rfl, hid, hty, rfl, rfl, Or.inl rfl⟩

/-! ## C3 -/

theorem idsMatch_set (r r1 : Registry) (p : ChanPtr) (ch ch1 : Channel) (h : IdsMatch r)
    (hp : r.heap[p]? = some ch) (hid : ch1.id = ch.id) (hheap : r1.heap = r.heap.set p ch1)
    (hall : ∀ id v, r1.allChannels id = some v → r.allChannels id = some v) : IdsMatch r1 := by
  intro id v hv
  obtain ⟨q, c, rfl, hq, hcid⟩ := h id v (hall id v hv)
  rw [hheap]
  by_cases hqp : q = p
  · subst hqp
    rw [hp] at hq
    cases hq
    exact ⟨q, ch1, rfl, by rw [heap_set_getElem? _ q q ch ch1 hp, if_pos rfl], by rw [hid, hcid]⟩
  · exact ⟨q, c, rfl, by rw [heap_set_getElem? _ p q ch ch1 hp, if_neg hqp, hq], hcid⟩

theorem idsMatch_create (s : GlobalSettingsType) (r : Registry) (t : ChannelType)
    (owner : Option ConnPtr) (h : IdsMatch r) : IdsMatch (CreateChannel s r t owner).1 := by
  by_cases hf : t = ChannelType.GLOBAL ∧ r.globalChannel ≠ none
  · rw [CreateChannel_fail s r t owner hf]
    exact h
  · obtain ⟨ch, hc, hid, -⟩ := CreateChannel_ok s r t owner hf
    rw [hc]
    intro id v hv
    simp only [syncStore] at hv
    by_cases hk : id = r.nextChannelId
    · rw [if_pos hk] at hv
      cases hv
      exact ⟨r.heap.length, ch, rfl, List.getElem?_concat_length _ _, by rw [hid, hk]⟩
    · rw [if_neg hk] at hv
      obtain ⟨q, c, rfl, hq, hcid⟩ := h id v hv
      have hlt : q < r.heap.length := (List.getElem?_eq_some_iff.mp hq).1
      exact ⟨q, c, rfl, by
        show (r.heap ++ [ch])[q]? = some c
        rw [List.getElem?_append_left hlt, hq], hcid⟩

theorem step_idsMatch (s : GlobalSettingsType) (r r1 : Registry) (c : Call)
    (hc : c.isInit = false) (h : IdsMatch r) (hs : step s r c = some r1) : IdsMatch r1 := by
  by_cases hcr : ∃ t owner, c = Call.createChannel t owner
  · obtain ⟨t, owner, rfl⟩ := hcr
    simp only [step, Option.some.injEq] at hs
    subst hs
    exact idsMatch_create s r t owner h
  · have hcr2 : ∀ t owner, c ≠ Call.createChannel t owner := fun t owner e => hcr ⟨t, owner, e⟩
    obtain ⟨p, ch, ch1, hp, hheap, hid, -, -, -, hall⟩ := step_set_shape s r r1 c hc hcr2 hs
    refine idsMatch_set r r1 p ch ch1 h hp hid hheap ?_
    intro id v hv
    rcases hall with e | ⟨-, e⟩
    · rw [e] at hv
      exact hv
    · rw [e] at hv
      simp only [syncDelete] at hv
      by_cases hk : id = ch.id
      · rw [if_pos hk] at hv
        cases hv
      · rw [if_neg hk] at hv
        exact hv

theorem run_idsMatch (s : GlobalSettingsType) :
    ∀ (calls : List Call) (r r1 : Registry),
      calls.all (fun c => !c.isInit) = true → IdsMatch r → run s r calls = some r1 →
      IdsMatch r1 := by
  intro calls
  induction calls with
  | nil =>
    intro r r1 _ h hr
    simp only [run, Option.some.injEq] at hr
    subst hr
    exact h
  | cons c cs ih =>
    intro r r1 hno h hr
    simp only [List.all_cons, Bool.and_eq_true, Bool.not_eq_true'] at hno
    simp only [run] at hr
    cases hst : step s r c with
    | none => simp [hst] at hr
    | some r2 =>
      simp only [hst] at hr
      exact ih r2 r1 hno.2 (step_idsMatch s r r2 c hno.1 h hst) hr

theorem idsMatch_initRegistry : IdsMatch initRegistry := by
  intro id v hv
  simp [initRegistry] at hv

/-- The state after `InitChannels` in a state whose `globalChannel` is nil: one
new GLOBAL object, registered under the current id and under id 0. -/
theorem InitChannels_fresh (s : GlobalSettingsType) (r : Registry) (hg : r.globalChannel = none) :
    ∃ ch : Channel, ch.id = r.nextChannelId ∧ ch.channelType = ChannelType.GLOBAL ∧
      ch.removing = 0 ∧ ch.inMsgQueueClosed = false ∧
      InitChannels s r =
        { heap := r.heap ++ [ch]
          nextChannelId := (r.nextChannelId + 1) % 2 ^ 32
          allChannels :=
            syncStore (syncStore r.allChannels r.nextChannelId (some r.heap.length))
              GlobalChannelId (some r.heap.length)
          globalChannel := some r.heap.length } := by
  have hf : ¬ (ChannelType.GLOBAL = ChannelType.GLOBAL ∧ r.globalChannel ≠ none) := by
    simp [hg]
  obtain ⟨ch, hc, hid, hty, -, -, hrm, hcl, -⟩ := CreateChannel_ok s r ChannelType.GLOBAL none hf
  refine ⟨ch, hid, hty, hrm, hcl, ?_⟩
  unfold InitChannels
  rw [hc]

theorem idsMatch_init_first (s : GlobalSettingsType) : IdsMatch (InitChannels s initRegistry) := by
  obtain ⟨ch, hid, -, -, -, he⟩ := InitChannels_fresh s initRegistry rfl
  rw [he]
  have hid0 : ch.id = 0 := hid
  intro id v hv
  simp only [syncStore] at hv
  by_cases hk : id = GlobalChannelId
  · rw [if_pos hk] at hv
    cases hv
    exact ⟨_, ch, rfl, List.getElem?_concat_length _ _, by rw [hid0, hk]; rfl⟩
  · rw [if_neg hk] at hv
    have hk2 : ¬ id = initRegistry.nextChannelId := hk
    rw [if_neg hk2] at hv
    simp [initRegistry] at hv

/-- C3, counterexample. After `CreateChannel(SUBWORLD, nil)` and then
`InitChannels()` from the initial state, the registry's entry for id 0 is a
channel whose id field is 1. -/
theorem initChannels_late_breaks_idsMatch :
    (run GlobalSettings initRegistry
        [Call.createChannel ChannelType.SUBWORLD none, Call.initChannels]).bind
      (fun r => (GetChannel r GlobalChannelId).bind (fun p => (r.heap[p]?).map Channel.id))
      = some 1 := by
  decide

/-- C3, amended. In every state reachable from the initial state by
`CreateChannel` and `RemoveChannel` calls (and `PutMessage` calls and `Tick`
iterations), with or without one `InitChannels` call made first, every id
present in the registry maps to a channel whose id field is that id; so
`GetChannel(id)`, when it returns a channel, returns one with that id. -/
theorem idsMatch_of_init_first (s : GlobalSettingsType) (calls : List Call) (r : Registry)
    (hno : calls.all (fun c => !c.isInit) = true)
    (hrun : run s initRegistry calls = some r ∨
      run s initRegistry (Call.initChannels :: calls) = some r) :
    IdsMatch r ∧
      ∀ (id : ChannelId) (p : ChanPtr), GetChannel r id = some p →
        ∃ ch, r.heap[p]? = some ch ∧ ch.id = id := by
  have hI : IdsMatch r := by
    rcases hrun with h | h
    · exact run_idsMatch s calls initRegistry r hno idsMatch_initRegistry h
    · simp only [run, step] at h
      exact run_idsMatch s calls _ r hno (idsMatch_init_first s) h
  refine ⟨hI, ?_⟩
  intro id p hg
  unfold GetChannel at hg
  cases hv : r.allChannels id with
  | none => simp [hv] at hg
  | some v =>
    simp only [hv] at hg
    subst hg
    obtain ⟨q, ch, hq, hch, hid⟩ := hI id (some p) hv
    cases hq
    exact ⟨ch, hch, hid⟩

/-- C3, amended, at a concrete run: `InitChannels`, two `CreateChannel` calls
and the removal of the first created channel; id 2 maps to the object at address
2, whose id is 2. -/
theorem idsMatch_of_init_first_witness :
    ∃ ch, ((run GlobalSettings initRegistry
        [Call.initChannels, Call.createChannel ChannelType.TEST (some 7),
          Call.createChannel ChannelType.SUBWORLD none, Call.removeChannel 1]).getD
        initRegistry).heap[2]? = some ch ∧ ch.id = 2 :=
  (idsMatch_of_init_first GlobalSettings
    [Call.createChannel ChannelType.TEST (some 7),
      Call.createChannel ChannelType.SUBWORLD none, Call.removeChannel 1]
    ((run GlobalSettings initRegistry
        [Call.initChannels, Call.createChannel ChannelType.TEST (some 7),
          Call.createChannel ChannelType.SUBWORLD none, Call.removeChannel 1]).getD
      initRegistry)
    (by decide) (Or.inr rfl)).2 2 2 (by decide)

/-! ## C4 -/

theorem CreateChannel_heap (s : GlobalSettingsType) (r : Registry) (t : ChannelType)
    (owner : Option ConnPtr) :
    (CreateChannel s r t owner).1.heap = r.heap ∨
      ∃ ch : Channel, (CreateChannel s r t owner).1.heap = r.heap ++ [ch] ∧ ch.removing = 0 ∧
        ch.inMsgQueueClosed = false := by
  by_cases hf : t = ChannelType.GLOBAL ∧ r.globalChannel ≠ none
  · rw [CreateChannel_fail s r t owner hf]
    exact Or.inl rfl
  · obtain ⟨ch, hc, -, -, -, -, hrm, hcl, -⟩ := CreateChannel_ok s r t owner hf
    rw [hc]
    exact Or.inr ⟨ch, rfl, hrm, hcl⟩

theorem InitChannels_heap (s : GlobalSettingsType) (r : Registry) :
    (InitChannels s r).heap = (CreateChannel s r ChannelType.GLOBAL none).1.heap := rfl

theorem step_heap_length (s : GlobalSettingsType) (r r1 : Registry) (c : Call)
    (h : step s r c = some r1) : r.heap.length ≤ r1.heap.length := by
  have hcreate : ∀ t owner, r.heap.length ≤ (CreateChannel s r t owner).1.heap.length := by
    intro t owner
    rcases CreateChannel_heap s r t owner with e | ⟨ch, e, -⟩
    · rw [e]
    · rw [e]
      simp
  by_cases hi : c.isInit = true
  · cases c with
    | initChannels =>
      simp only [step, Option.some.injEq] at h
      subst h
      rw [InitChannels_heap]
      exact hcreate _ _
    | _ => simp [Call.isInit] at hi
  · by_cases hcr : ∃ t owner, c = Call.createChannel t owner
    · obtain ⟨t, owner, rfl⟩ := hcr
      simp only [step, Option.some.injEq] at h
      subst h
      exact hcreate _ _
    · have hcr2 : ∀ t owner, c ≠ Call.createChannel t owner := fun t owner e => hcr ⟨t, owner, e⟩
      obtain ⟨p, ch, ch1, -, hheap, -⟩ :=
        step_set_shape s r r1 c (by simpa using hi) hcr2 h
      rw [hheap, List.length_set]

theorem run_heap_length (s : GlobalSettingsType) :
    ∀ (calls : List Call) (r r1 : Registry), run s r calls = some r1 →
      r.heap.length ≤ r1.heap.length := by
  intro calls
  induction calls with
  | nil =>
    intro r r1 hr
    simp only [run, Option.some.injEq] at hr
    subst hr
    exact Nat.le_refl _
  | cons c cs ih =>
    intro r r1 hr
    simp only [run] at hr
    cases hst : step s r c with
    | none => simp [hst] at hr
    | some r2 =>
      simp only [hst] at hr
      exact Nat.le_trans (step_heap_length s r r2 c hst) (ih r2 r1 hr)

theorem globalInPlace_init_first (s : GlobalSettingsType) :
    GlobalInPlace (InitChannels s initRegistry) := by
  obtain ⟨ch, hid, hty, -, -, he⟩ := InitChannels_fresh s initRegistry rfl
  rw [he]
  have hid0 : ch.id = 0 := hid
  refine ⟨rfl, ?_, ⟨ch, rfl, hty⟩, ?_, rfl⟩
  · simp [syncStore, initRegistry]
  · intro p c hp
    have hp2 : ([ch] : List Channel)[p]? = some c := hp
    cases p with
    | zero =>
      simp only [List.getElem?_cons_zero, Option.some.injEq] at hp2
      subst hp2
      exact hid0
    | succ n => simp at hp2

theorem step_globalInPlace (s : GlobalSettingsType) (r r1 : Registry) (c : Call)
    (hc : c.isInit = false) (hsp : c.removesGlobal r = false) (hK : GlobalInPlace r)
    (hs : step s r c = some r1) (hlen : r1.heap.length ≤ 2 ^ 32) : GlobalInPlace r1 := by
  obtain ⟨hg, hall0, ⟨gch, hgch, hgty⟩, hids, hnext⟩ := hK
  have hpos : 0 < r.heap.length := (List.getElem?_eq_some_iff.mp hgch).1
  by_cases hcr : ∃ t owner, c = Call.createChannel t owner
  · obtain ⟨t, owner, rfl⟩ := hcr
    simp only [step, Option.some.injEq] at hs
    subst hs
    by_cases hf : t = ChannelType.GLOBAL ∧ r.globalChannel ≠ none
    · rw [CreateChannel_fail s r t owner hf]
      exact ⟨hg, hall0, ⟨gch, hgch, hgty⟩, hids, hnext⟩
    · obtain ⟨ch, hcq, hid, -⟩ := CreateChannel_ok s r t owner hf
      rw [hcq] at hlen ⊢
      have hlen2 : r.heap.length + 1 ≤ 2 ^ 32 := by simpa using hlen
      have hnz : r.nextChannelId = r.heap.length := by
        rw [hnext]
        exact Nat.mod_eq_of_lt hlen2
      refine ⟨hg, ?_, ⟨gch, ?_, hgty⟩, ?_, ?_⟩
      · show syncStore r.allChannels r.nextChannelId (some r.heap.length) GlobalChannelId = _
        have hne : ¬ GlobalChannelId = r.nextChannelId := by
          rw [hnz]
          exact fun e => absurd (e ▸ hpos) (Nat.lt_irrefl _)
        simp only [syncStore, if_neg hne]
        exact hall0
      · show (r.heap ++ [ch])[0]? = some gch
        rw [List.getElem?_append_left hpos, hgch]
      · intro q cq hq
        have hq2 : (r.heap ++ [ch])[q]? = some cq := hq
        by_cases hlt : q < r.heap.length
        · rw [List.getElem?_append_left hlt] at hq2
          exact hids q cq hq2
        · have hql : q < (r.heap ++ [ch]).length := (List.getElem?_eq_some_iff.mp hq2).1
          have hqe : q = r.heap.length := by
            simp only [List.length_append, List.length_singleton] at hql
            simp only [ChanPtr] at hql hlt ⊢
            omega
          subst hqe
          rw [List.getElem?_concat_length] at hq2
          cases hq2
          rw [hid, hnext]
      · show (r.nextChannelId + 1) % 2 ^ 32 = (r.heap ++ [ch]).length % 2 ^ 32
        rw [hnz]
        simp
  · have hcr2 : ∀ t owner, c ≠ Call.createChannel t owner := fun t owner e => hcr ⟨t, owner, e⟩
    obtain ⟨p, ch, ch1, hp, hheap, hid, hty, hn1, hg1, hall⟩ :=
      step_set_shape s r r1 c hc hcr2 hs
    have hlen1 : r1.heap.length = r.heap.length := by rw [hheap, List.length_set]
    have hget : ∀ q, r1.heap[q]? = if q = p then some ch1 else r.heap[q]? := by
      intro q
      rw [hheap]
      exact heap_set_getElem? r.heap p q ch ch1 hp
    refine ⟨by rw [hg1, hg], ?_, ?_, ?_, by rw [hn1, hlen1, hnext]⟩
    · rcases hall with e | ⟨rfl, e⟩
      · rw [e]
        exact hall0
      · rw [e]
        have hp0 : p ≠ 0 := by
          intro e0
          subst e0
          simp [Call.removesGlobal, hg] at hsp
        have hplt : p < r.heap.length := (List.getElem?_eq_some_iff.mp hp).1
        have hidp : ch.id = p := by
          rw [hids p ch hp]
          apply Nat.mod_eq_of_lt
          rw [hlen1] at hlen
          simp only [ChanPtr] at *
          omega
        have hne : ¬ GlobalChannelId = ch.id := by
          rw [hidp]
          exact fun e0 => hp0 e0.symm
        simp only [syncDelete, if_neg hne]
        exact hall0
    · by_cases h0 : 0 = p
      · subst h0
        rw [hp] at hgch
        cases hgch
        exact ⟨ch1, by rw [hget 0, if_pos rfl], by rw [hty, hgty]⟩
      · exact ⟨gch, by rw [hget 0, if_neg h0, hgch], hgty⟩
    · intro q cq hq
      rw [hget q] at hq
      by_cases hqp : q = p
      · subst hqp
        rw [if_pos rfl] at hq
        cases hq
        rw [hid]
        exact hids q ch hp
      · rw [if_neg hqp] at hq
        exact hids q cq hq

theorem run_globalInPlace (s : GlobalSettingsType) :
    ∀ (calls : List Call) (r r1 : Registry),
      calls.all (fun c => !c.isInit) = true → sparesGlobal s r calls = true →
      GlobalInPlace r → run s r calls = some r1 → r1.heap.length ≤ 2 ^ 32 →
      GlobalInPlace r1 := by
  intro calls
  induction calls with
  | nil =>
    intro r r1 _ _ hK hr _
    simp only [run, Option.some.injEq] at hr
    subst hr
    exact hK
  | cons c cs ih =>
    intro r r1 hno hsp hK hr hlen
    simp only [List.all_cons, Bool.and_eq_true, Bool.not_eq_true'] at hno
    simp only [run] at hr
    cases hst : step s r c with
    | none => simp [hst] at hr
    | some r2 =>
      simp only [hst] at hr
      simp only [sparesGlobal, hst, Bool.and_eq_true, Bool.not_eq_true'] at hsp
      have hl2 : r2.heap.length ≤ 2 ^ 32 := Nat.le_trans (run_heap_length s cs r2 r1 hr) hlen
      exact ih r2 r1 hno.2 hsp.2 (step_globalInPlace s r r2 c hno.1 hsp.1 hK hst hl2) hr hlen

/-- C4, counterexample. After `InitChannels()` and `RemoveChannel` on the
GLOBAL channel (the object at address 0), `GetChannel(GlobalChannelId)` returns
nil. -/
theorem removeChannel_removes_global :
    (run GlobalSettings initRegistry [Call.initChannels, Call.removeChannel 0]).map
      (fun r => GetChannel r GlobalChannelId) = some none := by
  decide

/-- C4, amended. When `InitChannels` is the first call made, then in every
state reached afterwards by `CreateChannel` calls and by `RemoveChannel` calls
on channels other than the GLOBAL channel (and `PutMessage` calls and `Tick`
iterations), as long as at most `2^32` channels have been created in all,
`GetChannel(GlobalChannelId)` returns a non-nil channel of type GLOBAL. -/
theorem global_channel_stays (s : GlobalSettingsType) (calls : List Call) (r : Registry)
    (hno : calls.all (fun c => !c.isInit) = true)
    (hsp : sparesGlobal s (InitChannels s initRegistry) calls = true)
    (hrun : run s (InitChannels s initRegistry) calls = some r)
    (hlen : r.heap.length ≤ 2 ^ 32) :
    ∃ p ch, GetChannel r GlobalChannelId = some p ∧ r.heap[p]? = some ch ∧
      ch.channelType = ChannelType.GLOBAL := by
  obtain ⟨-, hall0, ⟨gch, hgch, hgty⟩, -, -⟩ :=
    run_globalInPlace s calls _ r hno hsp (globalInPlace_init_first s) hrun hlen
  refine ⟨0, gch, ?_, hgch, hgty⟩
  unfold GetChannel
  rw [hall0]

/-- C4, amended, at a concrete run: after `InitChannels`, a TEST channel is
created and removed; id 0 still maps to a GLOBAL channel. -/
theorem global_channel_stays_witness :
    ∃ p ch,
      GetChannel ((run GlobalSettings (InitChannels GlobalSettings initRegistry)
        [Call.createChannel ChannelType.TEST (some 7), Call.removeChannel 1]).getD initRegistry)
        GlobalChannelId = some p ∧
      ((run GlobalSettings (InitChannels GlobalSettings initRegistry)
        [Call.createChannel ChannelType.TEST (some 7), Call.removeChannel 1]).getD
          initRegistry).heap[p]? = some ch ∧
      ch.channelType = ChannelType.GLOBAL :=
  global_channel_stays GlobalSettings
    [Call.createChannel ChannelType.TEST (some 7), Call.removeChannel 1]
    ((run GlobalSettings (InitChannels GlobalSettings initRegistry)
      [Call.createChannel ChannelType.TEST (some 7), Call.removeChannel 1]).getD initRegistry)
    (by decide) (by decide) rfl (by decide)

/-! ## C7 -/

/-- What any call does to the heap: nothing, one new live object at the end, or
one object replaced, either a live one that keeps `removing` and the state of
its queue, or an open one that is removed. -/
theorem step_heap_shape (s : GlobalSettingsType) (r r1 : Registry) (c : Call)
    (h : step s r c = some r1) :
    r1.heap = r.heap ∨
      (∃ ch : Channel, r1.heap = r.heap ++ [ch] ∧ ch.removing = 0 ∧
        ch.inMsgQueueClosed = false) ∨
      (∃ (p : ChanPtr) (ch ch1 : Channel), r.heap[p]? = some ch ∧ r1.heap = r.heap.set p ch1 ∧
        ((ch.IsRemoving = false ∧ ch1.removing = ch.removing ∧
            ch1.inMsgQueueClosed = ch.inMsgQueueClosed) ∨
          (ch.inMsgQueueClosed = false ∧ ch1.removing = toInt32 (ch.removing + 1) ∧
            ch1.inMsgQueueClosed = true))) := by
  cases c with
  | initChannels =>
    simp only [step, Option.some.injEq] at h
    subst h
    rw [InitChannels_heap]
    rcases CreateChannel_heap s r ChannelType.GLOBAL none with e | e
    · exact Or.inl e
    · exact Or.inr (Or.inl e)
  | createChannel t owner =>
    simp only [step, Option.some.injEq] at h
    subst h
    rcases CreateChannel_heap s r t owner with e | e
    · exact Or.inl e
    · exact Or.inr (Or.inl e)
  | removeChannel p =>
    obtain ⟨ch, hp, hcl, rfl⟩ := RemoveChannel_eq r r1 p h
    exact Or.inr (Or.inr ⟨p, ch, _, hp, rfl, Or.inr ⟨hcl, rfl, rfl⟩⟩)
  | putMessage p msg handler conn pack =>
    obtain ⟨ch, hp, h1 | ⟨hr, cm, rfl⟩⟩ := PutMessage_eq r r1 p msg handler conn pack h
    · obtain ⟨-, rfl⟩ := h1
      exact Or.inl rfl
    · exact Or.inr (Or.inr ⟨p, ch, _, hp, rfl, Or.inl ⟨hr, rfl, rfl⟩⟩)
  | tick p env =>
    obtain ⟨ev, b, ht⟩ := step_tick_eq s r r1 p env h
    obtain ⟨ch, hp, h1 | ⟨ch1, htc, rfl, -⟩⟩ := tickIteration_eq r r1 p env ev b ht
    · obtain ⟨-, rfl, -, -⟩ := h1
      exact Or.inl rfl
    · obtain ⟨hr, -, -, hrm, hcl⟩ := tickChannel_eq env p ch ch1 ev htc
      exact Or.inr (Or.inr ⟨p, ch, ch1, hp, rfl, Or.inl ⟨hr, hrm, hcl⟩⟩)

theorem step_settled (s : GlobalSettingsType) (r r1 : Registry) (c : Call) (hS : Settled r)
    (h : step s r c = some r1) : Settled r1 := by
  intro q cq hq
  rcases step_heap_shape s r r1 c h with e | ⟨ch, e, hrm, hcl⟩ | ⟨p, ch, ch1, hp, e, hcase⟩
  · rw [e] at hq
    exact hS q cq hq
  · rw [e] at hq
    by_cases hlt : q < r.heap.length
    · rw [List.getElem?_append_left hlt] at hq
      exact hS q cq hq
    · have hql : q < (r.heap ++ [ch]).length := (List.getElem?_eq_some_iff.mp hq).1
      have hqe : q = r.heap.length := by
        simp only [List.length_append, List.length_singleton] at hql
        simp only [ChanPtr] at hql hlt ⊢
        omega
      subst hqe
      rw [List.getElem?_concat_length] at hq
      cases hq
      exact Or.inl ⟨hcl, hrm⟩
  · rw [e, heap_set_getElem? r.heap p q ch ch1 hp] at hq
    by_cases hqp : q = p
    · rw [if_pos hqp] at hq
      cases hq
      rcases hcase with ⟨-, hrm, hcl⟩ | ⟨hcl0, hrm, hcl⟩
      · rw [hrm, hcl]
        exact hS p ch hp
      · rcases hS p ch hp with ⟨-, h0⟩ | ⟨h1, -⟩
        · refine Or.inr ⟨hcl, ?_⟩
          rw [hrm, h0]
          decide
        · rw [hcl0] at h1
          cases h1
    · rw [if_neg hqp] at hq
      exact hS q cq hq

theorem run_settled (s : GlobalSettingsType) :
    ∀ (calls : List Call) (r r1 : Registry), Settled r → run s r calls = some r1 →
      Settled r1 := by
  intro calls
  induction calls with
  | nil =>
    intro r r1 hS hr
    simp only [run, Option.some.injEq] at hr
    subst hr
    exact hS
  | cons c cs ih =>
    intro r r1 hS hr
    simp only [run] at hr
    cases hst : step s r c with
    | none => simp [hst] at hr
    | some r2 =>
      simp only [hst] at hr
      exact ih r2 r1 (step_settled s r r2 c hS hst) hr

theorem settled_initRegistry : Settled initRegistry := by
  intro p ch hp
  simp [initRegistry] at hp

theorem frozen_isRemoving (ch : Channel) (h : ch.removing = 1) : ch.IsRemoving = true := by
  simp [Channel.IsRemoving, h]

theorem step_frozen (s : GlobalSettingsType) (r r1 : Registry) (c : Call) (p : ChanPtr)
    (q : List channelMessage) (hF : Frozen p q r) (h : step s r c = some r1) :
    Frozen p q r1 := by
  obtain ⟨chp, hp, hrm, hcl, hq⟩ := hF
  have hplt : p < r.heap.length := (List.getElem?_eq_some_iff.mp hp).1
  rcases step_heap_shape s r r1 c h with e | ⟨ch, e, -, -⟩ | ⟨p1, ch, ch1, hp1, e, hcase⟩
  · exact ⟨chp, by rw [e, hp], hrm, hcl, hq⟩
  · exact ⟨chp, by rw [e, List.getElem?_append_left hplt, hp], hrm, hcl, hq⟩
  · have hne : p ≠ p1 := by
      intro e1
      subst e1
      rw [hp] at hp1
      cases hp1
      rcases hcase with ⟨hr, -, -⟩ | ⟨hc0, -, -⟩
      · rw [frozen_isRemoving chp hrm] at hr
        cases hr
      · rw [hcl] at hc0
        cases hc0
    exact ⟨chp, by rw [e, heap_set_getElem? r.heap p1 p ch ch1 hp1, if_neg hne, hp], hrm, hcl, hq⟩

theorem run_frozen (s : GlobalSettingsType) (p : ChanPtr) (q : List channelMessage) :
    ∀ (calls : List Call) (r r1 : Registry), Frozen p q r → run s r calls = some r1 →
      Frozen p q r1 := by
  intro calls
  induction calls with
  | nil =>
    intro r r1 hF hr
    simp only [run, Option.some.injEq] at hr
    subst hr
    exact hF
  | cons c cs ih =>
    intro r r1 hF hr
    simp only [run] at hr
    cases hst : step s r c with
    | none => simp [hst] at hr
    | some r2 =>
      simp only [hst] at hr
      exact ih r2 r1 (step_frozen s r r2 c p q hF hst) hr

theorem RemoveChannel_frozen (r r1 : Registry) (p : ChanPtr) (hS : Settled r)
    (h : RemoveChannel r p = some r1) :
    ∃ q, Frozen p q r1 := by
  obtain ⟨ch, hp, hcl, rfl⟩ := RemoveChannel_eq r r1 p h
  have h0 : ch.removing = 0 := by
    rcases hS p ch hp with ⟨-, h0⟩ | ⟨h1, -⟩
    · exact h0
    · rw [hcl] at h1
      cases h1
  refine ⟨ch.inMsgQueue,
    { ch with removing := toInt32 (ch.removing + 1), inMsgQueueClosed := true }, ?_, ?_, rfl, rfl⟩
  · show (r.heap.set p _)[p]? = some _
    rw [heap_set_getElem? r.heap p p ch _ hp, if_pos rfl]
  · show toInt32 (ch.removing + 1) = 1
    rw [h0]
    decide

theorem frozen_tickIteration (r : Registry) (p : ChanPtr) (q : List channelMessage)
    (hF : Frozen p q r) (env : TickEnv) : tickIteration r p env = some (r, [], true) := by
  obtain ⟨ch, hp, hrm, -, -⟩ := hF
  unfold tickIteration
  simp only [hp]
  have ht : tickChannel env p ch = none := by
    unfold tickChannel
    rw [if_pos (frozen_isRemoving ch hrm)]
  rw [ht]

/-- C7. In a state reached from the initial state, after `RemoveChannel(ch)`
and whatever calls follow: `PutMessage` on `ch` returns without changing the
state, every `Tick` iteration on `ch` returns from the loop at the removing
check without calling a handler, and the inbox of `ch` is the one
`RemoveChannel` left. -/
theorem removed_channel_drops (s : GlobalSettingsType) (pre later : List Call)
    (r r1 r2 : Registry) (p : ChanPtr)
    (hpre : run s initRegistry pre = some r) (hrm : RemoveChannel r p = some r1)
    (hlater : run s r1 later = some r2) :
    (∀ msg handler conn pack, PutMessage r2 p msg handler conn pack = some r2) ∧
      (∀ env, tickIteration r2 p env = some (r2, [], true)) ∧
      (∀ env envs, Tick r2 p (env :: envs) = some (r2, [], true)) ∧
      (r2.heap[p]?).map Channel.inMsgQueue = (r1.heap[p]?).map Channel.inMsgQueue := by
  have hS : Settled r := run_settled s pre initRegistry r settled_initRegistry hpre
  obtain ⟨q, hF1⟩ := RemoveChannel_frozen r r1 p hS hrm
  have hF2 : Frozen p q r2 := run_frozen s p q later r1 r2 hF1 hlater
  refine ⟨?_, frozen_tickIteration r2 p q hF2, ?_, ?_⟩
  · intro msg handler conn pack
    obtain ⟨ch, hp, hr, -, -⟩ := hF2
    unfold PutMessage
    simp only [hp]
    rw [if_pos (frozen_isRemoving ch hr)]
  · intro env envs
    unfold Tick
    rw [frozen_tickIteration r2 p q hF2 env]
  · obtain ⟨ch2, hp2, -, -, hq2⟩ := hF2
    obtain ⟨ch1, hp1, -, -, hq1⟩ := hF1
    rw [hp2, hp1]
    simp [hq1, hq2]

/-- C7 at the sample run: the TEST channel at address 1 holds one message when
it is removed; a later `PutMessage`, a later `Tick` iteration and a later
`CreateChannel` leave it so. -/
theorem removed_channel_drops_witness :
    (∀ msg handler conn pack, PutMessage sampleAfter 1 msg handler conn pack = some sampleAfter) ∧
      (∀ env, tickIteration sampleAfter 1 env = some (sampleAfter, [], true)) ∧
      (∀ env envs, Tick sampleAfter 1 (env :: envs) = some (sampleAfter, [], true)) ∧
      (sampleAfter.heap[1]?).map Channel.inMsgQueue =
        (sampleRemoved.heap[1]?).map Channel.inMsgQueue :=
  removed_channel_drops GlobalSettings samplePre sampleLater sampleBefore sampleRemoved
    sampleAfter 1 rfl rfl rfl

/-! ## C10 -/

theorem connNilOrRemoving_eq (env : TickEnv) (k : ConnectionId) :
    connNilOrRemoving env (env.GetConnection k) = !connLive env k := by
  unfold connNilOrRemoving connLive
  cases env.GetConnection k <;> simp

theorem gcSubscriber_subs (env : TickEnv) (p : ChanPtr) (st : Channel × List TickEvent)
    (k : ConnectionId) :
    (gcSubscriber env p st k).1.subscribedConnections =
      if connLive env k then st.1.subscribedConnections
      else deleteSubscription st.1.subscribedConnections k := by
  unfold gcSubscriber
  simp only [connNilOrRemoving_eq]
  by_cases hl : connLive env k = true
  · simp [hl]
  · simp only [hl, Bool.not_false, if_true, Bool.false_eq_true, if_false]
    split
    · rfl
    · split
      · rfl
      · split <;> rfl

theorem gcFold_subs (env : TickEnv) (p : ChanPtr) :
    ∀ (ks : List ConnectionId) (st : Channel × List TickEvent),
      (ks.foldl (gcSubscriber env p) st).1.subscribedConnections =
        st.1.subscribedConnections.filter
          (fun e => connLive env e.1 || !decide (e.1 ∈ ks)) := by
  intro ks
  induction ks with
  | nil =>
    intro st
    simp
  | cons k ks ih =>
    intro st
    rw [List.foldl_cons, ih, gcSubscriber_subs]
    by_cases hl : connLive env k = true
    · rw [if_pos hl]
      apply List.filter_congr
      intro e _
      by_cases hek : e.1 = k
      · simp [hek, hl]
      · simp [hek]
    · rw [if_neg hl]
      unfold deleteSubscription
      rw [List.filter_filter]
      apply List.filter_congr
      intro e _
      have hl2 : connLive env k = false := by simpa using hl
      by_cases hek : e.1 = k
      · simp [hek, hl2]
      · simp [hek]

theorem gcSubscriber_owner (env : TickEnv) (p : ChanPtr) (st : Channel × List TickEvent)
    (k : ConnectionId)
    (hok : ∀ o, st.1.ownerConnection = some o → env.connIsRemoving o = false) :
    (gcSubscriber env p st k).1.ownerConnection = st.1.ownerConnection := by
  unfold gcSubscriber
  simp only
  split
  · rename_i hdead
    split
    · rename_i hnone
      simp
    · rename_i o ho
      have ho2 : st.1.ownerConnection = some o := ho
      split
      · rename_i heq
        rw [← heq] at hdead
        simp only [connNilOrRemoving] at hdead
        rw [hok o ho2] at hdead
        cases hdead
      · split <;> rfl
  · rfl

theorem gcFold_owner (env : TickEnv) (p : ChanPtr) :
    ∀ (ks : List ConnectionId) (st : Channel × List TickEvent),
      (∀ o, st.1.ownerConnection = some o → env.connIsRemoving o = false) →
      (ks.foldl (gcSubscriber env p) st).1.ownerConnection = st.1.ownerConnection := by
  intro ks
  induction ks with
  | nil => intro st _; rfl
  | cons k ks ih =>
    intro st hok
    have h1 := gcSubscriber_owner env p st k hok
    rw [List.foldl_cons, ih, h1]
    intro o ho
    rw [h1] at ho
    exact hok o ho

/-- C10. After the garbage-collection phase of a `Tick` iteration the subscriber
table holds exactly the earlier entries whose connection exists and is not
removing, in their earlier order; an owner whose connection was removing is
cleared to nil, and an owner whose connection was not removing, or no owner, is
left as it was. -/
theorem tickGC_spec (env : TickEnv) (p : ChanPtr) (ch : Channel) :
    (tickGC env p ch).1.subscribedConnections =
        ch.subscribedConnections.filter (fun e => connLive env e.1) ∧
      (∀ o, ch.ownerConnection = some o → env.connIsRemoving o = true →
        (tickGC env p ch).1.ownerConnection = none) ∧
      (∀ o, ch.ownerConnection = some o → env.connIsRemoving o = false →
        (tickGC env p ch).1.ownerConnection = some o) ∧
      (ch.ownerConnection = none → (tickGC env p ch).1.ownerConnection = none) := by
  have hsubs : (gcOwner env ch).subscribedConnections = ch.subscribedConnections := by
    unfold gcOwner
    split
    · rfl
    · split <;> rfl
  have hok : ∀ o, (gcOwner env ch).ownerConnection = some o → env.connIsRemoving o = false := by
    intro o ho
    unfold gcOwner at ho
    split at ho
    · rename_i hn
      rw [hn] at ho
      cases ho
    · rename_i o1 ho1
      by_cases hr : env.connIsRemoving o1 = true
      · rw [if_pos hr] at ho
        cases ho
      · rw [if_neg hr, ho1] at ho
        cases ho
        simpa using hr
  have hown : (tickGC env p ch).1.ownerConnection = (gcOwner env ch).ownerConnection := by
    unfold tickGC
    exact gcFold_owner env p _ _ hok
  refine ⟨?_, ?_, ?_, ?_⟩
  · unfold tickGC
    simp only
    rw [gcFold_subs, hsubs]
    apply List.filter_congr
    intro e he
    have hmem : e.1 ∈ ch.subscribedConnections.map Prod.fst := List.mem_map_of_mem _ he
    simp [hmem]
  · intro o ho hr
    rw [hown]
    unfold gcOwner
    simp [ho, hr]
  · intro o ho hr
    rw [hown]
    unfold gcOwner
    simp [ho, hr]
  · intro ho
    rw [hown]
    unfold gcOwner
    simp [ho]

/-- C10 at the sample channel: subscribers 2 (connection gone) and 3
(connection removing) are dropped, subscriber 1 is kept, and the owner, the
removing connection 13, is cleared. -/
theorem tickGC_spec_witness :
    (tickGC sampleEnv 1 sampleChannel).1.subscribedConnections = [(1, ⟨50, [], false, none⟩)] ∧
      (tickGC sampleEnv 1 sampleChannel).1.ownerConnection = none :=
  ⟨(tickGC_spec sampleEnv 1 sampleChannel).1.trans (by decide),
    (tickGC_spec sampleEnv 1 sampleChannel).2.1 13 (by decide) (by decide)⟩

/-! ## C11 -/

/-- C11. On the sample channel, whose owner is connection 11 and whose
subscribers 1 and 3 resolve to connections 11 and 13, `Broadcast` with mode
ALL_BUT_OWNER calls `Send` on connection 11, the owner, as well as on 13. -/
theorem Broadcast_all_but_owner_reaches_owner :
    sampleOwned.ownerConnection = some 11 ∧
      sampleRegistry.heap[0]? = some sampleOwned ∧
      Broadcast sampleRegistry 0 calmEnv (sampleCtx BroadcastType.ALL_BUT_OWNER)
        = some [11, 13] := by
  decide

/-! ## C12 -/

theorem count_filterMap_of_inj {α β : Type} [DecidableEq β] (f : α → Option β)
    (hinj : ∀ a b c, f a = some c → f b = some c → a = b) :
    ∀ (l : List α), l.Nodup → ∀ (k : α) (c : β), k ∈ l → f k = some c →
      (l.filterMap f).count c = 1 := by
  intro l
  induction l with
  | nil => intro _ k c hk; simp at hk
  | cons a l ih =>
    intro hnd k c hk hf
    have hal : a ∉ l := (List.nodup_cons.mp hnd).1
    have hl : l.Nodup := (List.nodup_cons.mp hnd).2
    by_cases hka : k = a
    · subst hka
      have hnot : c ∉ l.filterMap f := by
        intro hm
        obtain ⟨b, hb, hfb⟩ := List.mem_filterMap.mp hm
        exact hal (hinj k b c hf hfb ▸ hb)
      rw [List.filterMap_cons_some hf, List.count_cons_self, List.count_eq_zero.mpr hnot]
    · have hkl : k ∈ l := by
        rcases List.mem_cons.mp hk with e | e
        · exact absurd e hka
        · exact e
      have hfa : f a ≠ some c := fun e => hka (hinj k a c hf e)
      cases hfa2 : f a with
      | none => rw [List.filterMap_cons_none hfa2]; exact ih hl k c hkl hf
      | some b =>
        have hbc : b ≠ c := fun e => hfa (by rw [hfa2, e])
        rw [List.filterMap_cons_some hfa2, List.count_cons_of_ne (Ne.symm hbc)]
        exact ih hl k c hkl hf

theorem broadcastTarget_some (env : TickEnv) (ctx : MessageContext) (k : ConnectionId)
    (c : ConnPtr) :
    broadcastTarget env ctx k = some c ↔
      env.GetConnection k = some c ∧
        ¬ (ctx.Broadcast = BroadcastType.ALL_BUT_SENDER ∧ some c = ctx.Connection) := by
  unfold broadcastTarget
  cases hg : env.GetConnection k with
  | none => simp
  | some d =>
    dsimp only
    by_cases hs : ctx.Broadcast = BroadcastType.ALL_BUT_SENDER ∧ some d = ctx.Connection
    · rw [if_pos hs]
      constructor
      · intro h
        cases h
      · rintro ⟨h1, h2⟩
        cases h1
        exact absurd hs h2
    · rw [if_neg hs]
      constructor
      · intro h
        cases h
        exact ⟨rfl, hs⟩
      · rintro ⟨h1, -⟩
        exact h1

/-- C12. With broadcast mode ALL_BUT_SENDER, for a context whose channel is
`cch` (a table with one entry for each key, over a connection layer in which
different ids name different connections), `Broadcast` returns and calls `Send`
exactly once on the connection of every subscriber whose connection exists and
is not the sender, never on the sender, and on nothing but subscribers'
connections. -/
theorem Broadcast_all_but_sender (r : Registry) (p q : ChanPtr) (env : TickEnv)
    (ctx : MessageContext) (cch : Channel)
    (hq : ctx.Channel = some q) (hch : r.heap[q]? = some cch)
    (hmode : ctx.Broadcast = BroadcastType.ALL_BUT_SENDER)
    (hnd : (cch.subscribedConnections.map Prod.fst).Nodup)
    (hinj : ∀ k1 k2 c, env.GetConnection k1 = some c → env.GetConnection k2 = some c →
      k1 = k2) :
    ∃ sends, Broadcast r p env ctx = some sends ∧
      (∀ k c, k ∈ cch.subscribedConnections.map Prod.fst → env.GetConnection k = some c →
        some c ≠ ctx.Connection → sends.count c = 1) ∧
      (∀ c, some c = ctx.Connection → c ∉ sends) ∧
      (∀ c, c ∈ sends →
        ∃ k, k ∈ cch.subscribedConnections.map Prod.fst ∧ env.GetConnection k = some c) := by
  refine ⟨(cch.subscribedConnections.map Prod.fst).filterMap (broadcastTarget env ctx), ?_,
    ?_, ?_, ?_⟩
  · unfold Broadcast
    simp only [hq, hch]
  · intro k c hk hg hne
    have hf : broadcastTarget env ctx k = some c :=
      (broadcastTarget_some env ctx k c).mpr ⟨hg, fun h => hne h.2⟩
    refine count_filterMap_of_inj (broadcastTarget env ctx) ?_ _ hnd k c hk hf
    intro a b d ha hb
    exact hinj a b d ((broadcastTarget_some env ctx a d).mp ha).1
      ((broadcastTarget_some env ctx b d).mp hb).1
  · intro c hc hm
    obtain ⟨k, -, hk⟩ := List.mem_filterMap.mp hm
    exact ((broadcastTarget_some env ctx k c).mp hk).2 ⟨hmode, hc⟩
  · intro c hm
    obtain ⟨k, hkm, hk⟩ := List.mem_filterMap.mp hm
    exact ⟨k, hkm, ((broadcastTarget_some env ctx k c).mp hk).1⟩

/-- C12 at the sample channel with sender 13: subscriber 1 (connection 11)
gets the message once, the sender gets none. -/
theorem Broadcast_all_but_sender_witness :
    ∃ sends, Broadcast sampleRegistry 0 calmEnv (sampleCtx BroadcastType.ALL_BUT_SENDER)
        = some sends ∧
      sends.count 11 = 1 ∧ 13 ∉ sends := by
  obtain ⟨sends, h1, h2, h3, -⟩ :=
    Broadcast_all_but_sender sampleRegistry 0 0 calmEnv (sampleCtx BroadcastType.ALL_BUT_SENDER)
      sampleOwned rfl rfl rfl (by decide)
      (by
        intro k1 k2 c h1 h2
        simp only [calmEnv] at h1 h2
        split_ifs at h1 h2 <;>
          first
          | exact absurd (h1.trans h2.symm) (by decide)
          | simp_all)
  exact ⟨sends, h1, h2 1 11 (by decide) (by decide) (by decide), h3 13 (by decide)⟩

/-! ## C13 -/

/-- C13. spec-modelled. With `ListSizeLimit = N > 0` and
`ShouldReplaceRepeated = false`, `mergeWithOptions` leaves in `dst.list` the last
`min(N, |dst.list| + |src.list|)` elements of `dst.list` followed by `src.list`,
a list of that length. -/
theorem mergeWithOptions_list_limit (dst src : TestMergeMessage) (options : DataMergeOptions)
    (hN : 0 < options.ListSizeLimit) (hrep : options.ShouldReplaceRepeated = false) :
    (mergeWithOptions dst src options).list =
        (dst.list ++ src.list).drop
          ((dst.list ++ src.list).length -
            min options.ListSizeLimit (dst.list.length + src.list.length)) ∧
      (mergeWithOptions dst src options).list.length =
        min options.ListSizeLimit (dst.list.length + src.list.length) := by
  have hne : ¬ options.ListSizeLimit = 0 := Nat.pos_iff_ne_zero.mp hN
  have hl : (mergeWithOptions dst src options).list =
      (dst.list ++ src.list).drop ((dst.list ++ src.list).length - options.ListSizeLimit) := by
    simp only [mergeWithOptions, mergeList, limitList, hrep, if_neg hne, Bool.false_eq_true,
      if_false]
  have he : (dst.list ++ src.list).length - options.ListSizeLimit =
      (dst.list ++ src.list).length -
        min options.ListSizeLimit (dst.list.length + src.list.length) := by
    rw [List.length_append]
    omega
  refine ⟨by rw [hl, he], ?_⟩
  rw [hl, List.length_drop, List.length_append]
  omega

/-- C13 at the case of the merge test: `dst.list = [a, b, c]`,
`src.list = [d, e]` and a limit of 4 give `[b, c, d, e]`. -/
theorem mergeWithOptions_list_limit_witness :
    (mergeWithOptions ⟨["a", "b", "c"], []⟩ ⟨["d", "e"], []⟩ ⟨false, 4, false⟩).list =
        ["b", "c", "d", "e"] ∧
      (mergeWithOptions ⟨["a", "b", "c"], []⟩ ⟨["d", "e"], []⟩ ⟨false, 4, false⟩).list.length = 4 :=
  ⟨(mergeWithOptions_list_limit ⟨["a", "b", "c"], []⟩ ⟨["d", "e"], []⟩ ⟨false, 4, false⟩
      (by decide) rfl).1.trans (by decide),
    (mergeWithOptions_list_limit ⟨["a", "b", "c"], []⟩ ⟨["d", "e"], []⟩ ⟨false, 4, false⟩
      (by decide) rfl).2.trans (by decide)⟩

/-! ## C14 -/

theorem handledMessages_append (a b : List TickEvent) :
    handledMessages (a ++ b) = handledMessages a ++ handledMessages b := by
  unfold handledMessages
  rw [List.filterMap_append]

theorem gcSubscriber_handled (env : TickEnv) (p : ChanPtr) (st : Channel × List TickEvent)
    (k : ConnectionId) :
    handledMessages (gcSubscriber env p st k).2 = handledMessages st.2 := by
  unfold gcSubscriber
  simp only
  split
  · split
    · rfl
    · split
      · rfl
      · split
        · simp only [handledMessages_append]
          simp [handledMessages]
        · rfl
  · rfl

theorem gcFold_handled (env : TickEnv) (p : ChanPtr) :
    ∀ (ks : List ConnectionId) (st : Channel × List TickEvent),
      handledMessages (ks.foldl (gcSubscriber env p) st).2 = handledMessages st.2 := by
  intro ks
  induction ks with
  | nil => intro st; rfl
  | cons k ks ih =>
    intro st
    rw [List.foldl_cons, ih, gcSubscriber_handled]

theorem tickGC_handled (env : TickEnv) (p : ChanPtr) (ch : Channel) :
    handledMessages (tickGC env p ch).2 = [] := by
  unfold tickGC
  simp only
  rw [gcFold_handled]
  rfl

/-- Without a positive tick interval the loop never breaks: it empties the
queue and calls the handler of each message whose sender is present, in queue
order. -/
theorem drain_no_interval (tickInterval : Int) (elapsed : Nat → Int)
    (hti : ¬ tickInterval > 0) :
    ∀ (q : List channelMessage) (n : Nat),
      (drain tickInterval elapsed q n).1 = [] ∧
        handledMessages (drain tickInterval elapsed q n).2 =
          q.filter (fun cm => cm.ctx.Connection.isSome) := by
  intro q
  induction q with
  | nil => intro n; exact ⟨rfl, rfl⟩
  | cons cm q ih =>
    intro n
    unfold drain
    cases hc : cm.ctx.Connection with
    | none =>
      simp only
      refine ⟨(ih n).1, ?_⟩
      rw [List.filter_cons_of_neg (by simp [hc])]
      have h2 := (ih n).2
      simpa [handledMessages] using h2
    | some c =>
      have hno : ¬ (tickInterval > 0 ∧ elapsed (n + 1) ≥ tickInterval) := fun h => hti h.1
      simp only [if_neg hno]
      refine ⟨(ih (n + 1)).1, ?_⟩
      rw [List.filter_cons_of_pos (by simp [hc])]
      have h2 := (ih (n + 1)).2
      simpa [handledMessages] using h2

theorem tickChannel_live (env : TickEnv) (p : ChanPtr) (ch : Channel)
    (hlive : ch.IsRemoving = false) :
    tickChannel env p ch =
      some
        ({ (tickGC env p ch).1 with
            tickFrames := toInt64 ((tickGC env p ch).1.tickFrames + 1)
            inMsgQueue :=
              (drain (tickGC env p ch).1.tickInterval env.elapsed
                (tickGC env p ch).1.inMsgQueue 0).1 },
          (tickGC env p ch).2 ++
            (drain (tickGC env p ch).1.tickInterval env.elapsed
              (tickGC env p ch).1.inMsgQueue 0).2) := by
  unfold tickChannel
  rw [if_neg (by simp [hlive])]

/-- C14. For a channel with `tickInterval = 0` that is not removing, one `Tick`
iteration completes without leaving the loop, leaves the inbox empty, and the
handlers it calls are those of the queued messages whose sender connection is
non-nil, in queue order, and of no others. -/
theorem tick_drains_inbox (r : Registry) (p : ChanPtr) (env : TickEnv) (ch : Channel)
    (hp : r.heap[p]? = some ch) (hti : ch.tickInterval = 0) (hlive : ch.IsRemoving = false) :
    ∃ r1 ev ch1, tickIteration r p env = some (r1, ev, false) ∧ r1.heap[p]? = some ch1 ∧
      ch1.inMsgQueue = [] ∧
      handledMessages ev = ch.inMsgQueue.filter (fun cm => cm.ctx.Connection.isSome) := by
  have hf := tickGC_frame env p ch
  simp only [Channel.frame, Prod.mk.injEq] at hf
  obtain ⟨-, -, -, -, hq, hti2, -⟩ := hf
  have hno : ¬ (tickGC env p ch).1.tickInterval > 0 := by
    rw [hti2, hti]
    decide
  have hd := drain_no_interval (tickGC env p ch).1.tickInterval env.elapsed hno
    (tickGC env p ch).1.inMsgQueue 0
  have hres : ∃ res : Channel × List TickEvent, tickChannel env p ch = some res ∧
      res.1.inMsgQueue = [] ∧
      handledMessages res.2 = ch.inMsgQueue.filter (fun cm => cm.ctx.Connection.isSome) :=
    ⟨_, tickChannel_live env p ch hlive, hd.1, by
      rw [handledMessages_append, tickGC_handled, List.nil_append, hd.2, hq]⟩
  obtain ⟨res, h1, h2, h3⟩ := hres
  refine ⟨{ r with heap := r.heap.set p res.1 }, res.2, res.1, ?_, ?_, h2, h3⟩
  · unfold tickIteration
    simp only [hp, h1]
  · show (r.heap.set p res.1)[p]? = some res.1
    rw [heap_set_getElem? r.heap p p ch res.1 hp, if_pos rfl]

/-- C14 at the sample channel, whose queue holds three messages, the second
from a sender that is gone: the handlers of the first and the third are called,
in that order, and the inbox is left empty. -/
theorem tick_drains_inbox_witness :
    ∃ r1 ev ch1, tickIteration sampleRegistry 0 calmEnv = some (r1, ev, false) ∧
      r1.heap[0]? = some ch1 ∧ ch1.inMsgQueue = [] ∧
      (handledMessages ev).map (fun cm => cm.ctx.Msg) = [[1], [3]] := by
  obtain ⟨r1, ev, ch1, h1, h2, h3, h4⟩ :=
    tick_drains_inbox sampleRegistry 0 calmEnv sampleOwned rfl rfl rfl
  exact ⟨r1, ev, ch1, h1, h2, h3, by rw [h4]; decide⟩

end Channeld
